import Mathlib

/-!
Verification of the Liminal-Presence-Interface (LPI) core against its
specification.

The development shallowly embeds two subsystems of the repository:

* the CBOR/COSE canonical signing layer
  (`packages/python-lri/lri/cbor_cose.py` and `lri/ltp.py`), and
* the Liminal Session Store with coherence and drift detection
  (`packages/python-lpi/lpi/lss/__init__.py`).

Modelling conventions:

* CBOR values are modelled by the inductive `CV`.  Byte strings produced by
  `cbor2.dumps` are modelled by the constructor `CV.enc` (the canonical
  encoding of a value); `cbor2.dumps` is deterministic and injective on the
  values used here, so `CV.enc` being a constructor is faithful.  Raw
  (non-CBOR) byte strings such as signatures and key ids are `CV.bytes`.
  Arrays and maps are represented by cons chains so that decidable equality
  is derivable.
* Python floats are modelled by `ℚ`; the two transcendental operations the
  session store uses (`math.exp` and `** 0.5`) are abstracted into an `Ops`
  record, with the inequalities the proofs need stated as hypotheses.
* Ed25519 is abstracted into a `SigScheme` record (deterministic signing
  function, public-key derivation, verification predicate); base64url is a
  bijection between the signature blob and its text form and is modelled as
  the identity, so an envelope's `sig` field directly holds the blob.
* Python exceptions become `Except PyErr`; the distinct exception classes
  (`CoseError`, `cbor2` decode errors, pydantic validation errors,
  `AttributeError`) are separate constructors because
  `verify_signed_lce` catches only `CoseError`.
-/

/-- Model of the CBOR values handled by `cbor_cose.py`.  Sequences and maps
are encoded as cons chains (`arrNil`/`arrCons`, …) rather than `List`s so
that `DecidableEq` can be derived. -/
inductive CV where
  | int : Int → CV
  | num : Rat → CV
  | txt : String → CV
  | bytes : List Nat → CV
  | null : CV
  | enc : CV → CV
  | arrNil : CV
  | arrCons : CV → CV → CV
  | smapNil : CV
  | smapCons : String → CV → CV → CV
  | imapNil : CV
  | imapCons : Int → CV → CV → CV
  deriving DecidableEq, Repr

/-- Build a CBOR array value from a list of values. -/
def arrOf : List CV → CV
  | [] => CV.arrNil
  | v :: t => CV.arrCons v (arrOf t)

/-- Build a string-keyed CBOR map from an association list (entries are kept
in the canonical order in which they are given). -/
def smapOf : List (String × CV) → CV
  | [] => CV.smapNil
  | (k, v) :: t => CV.smapCons k v (smapOf t)

/-- Build an integer-keyed CBOR map from an association list. -/
def imapOf : List (Int × CV) → CV
  | [] => CV.imapNil
  | (k, v) :: t => CV.imapCons k v (imapOf t)

/-- Recover the association list of a string-keyed map value
(`cbor2.loads` result viewed as a Python dict). -/
def toAssoc? : CV → Option (List (String × CV))
  | CV.smapNil => some []
  | CV.smapCons k v r => (toAssoc? r).map (fun t => (k, v) :: t)
  | _ => none

/-- Recover the association list of an integer-keyed map value. -/
def toIAssoc? : CV → Option (List (Int × CV))
  | CV.imapNil => some []
  | CV.imapCons k v r => (toIAssoc? r).map (fun t => (k, v) :: t)
  | _ => none

/-- First-match association-list lookup (Python `dict.get` for the string
keyed maps; dict keys are unique so first match is the match). -/
def lookupKey : List (String × CV) → String → Option CV
  | [], _ => none
  | (k', v) :: t, k => if k' = k then some v else lookupKey t k

/-- First-match association-list lookup for integer keys. -/
def ilookup : List (Int × CV) → Int → Option CV
  | [], _ => none
  | (k', v) :: t, k => if k' = k then some v else ilookup t k

/-- `isinstance(x, bytes)`: raw byte strings and encoded values are both
Python `bytes`. -/
def isBytesCv : CV → Bool
  | CV.bytes _ => true
  | CV.enc _ => true
  | _ => false

/-- `cbor2.loads` on a byte string: decodes an encoded value, fails on raw
bytes or non-bytes. -/
def loads : CV → Option CV
  | CV.enc v => some v
  | _ => none

/-- Python exception classes relevant to the signing layer.
`verify_signed_lce` catches only `CoseError`. -/
inductive PyErr where
  | coseError : String → PyErr
  | cborDecodeError : PyErr
  | validationError : PyErr
  | attributeError : PyErr
  deriving DecidableEq, Repr

/-! ## The LCE envelope data model (`lri/types.py`)

`IntentType` and `ConsentLevel` are Python `Literal` string enums; they are
modelled as `String` together with the membership checks pydantic performs.
The constant schema-version field `v: Literal[1] = 1` is not stored in the
structure (it is always `1`); it is emitted and checked by the
encoder/validator. -/

structure Intent where
  type : String
  goal : Option String
  deriving DecidableEq, Repr

structure Affect where
  pad : Option (Rat × Rat × Rat)
  tags : Option (List String)
  deriving DecidableEq, Repr

structure Meaning where
  topic : Option String
  ontology : Option String
  deriving DecidableEq, Repr

structure TrustCx where
  proofRef : Option String
  attest : Option (List String)
  deriving DecidableEq, Repr

structure MemoryCx where
  thread : Option String
  t : Option String
  ttl : Option String
  deriving DecidableEq, Repr

structure Policy where
  consent : String
  share : Option (List String)
  dp : Option String
  deriving DecidableEq, Repr

structure QoS where
  coherence : Option Rat
  stability : Option String
  deriving DecidableEq, Repr

structure TraceCx where
  hop : Option Nat
  provenance : Option (List String)
  deriving DecidableEq, Repr

/-- The Liminal Context Envelope.  The `sig` field holds the decoded COSE
blob (base64url being modelled as the identity). -/
structure Lce where
  intent : Intent
  affect : Option Affect
  meaning : Option Meaning
  trust : Option TrustCx
  memory : Option MemoryCx
  policy : Policy
  qos : Option QoS
  trace : Option TraceCx
  sig : Option CV
  deriving DecidableEq, Repr

/-- The ten `IntentType` literals of `lri/types.py`. -/
def intentTypeNames : List String :=
  ["ask", "tell", "propose", "confirm", "notify", "sync", "plan", "agree",
   "disagree", "reflect"]

/-- The three `ConsentLevel` literals. -/
def consentNames : List String := ["private", "team", "public"]

/-- The validation pydantic performs when an `LCE` object is constructed:
intent type and consent level are members of their literal enums, PAD
components lie in `[-1, 1]`, and `qos.coherence` lies in `[0, 1]`. -/
def ValidLce (E : Lce) : Prop :=
  E.intent.type ∈ intentTypeNames ∧
  E.policy.consent ∈ consentNames ∧
  (∀ a ∈ E.affect, ∀ p ∈ a.pad,
    -1 ≤ p.1 ∧ p.1 ≤ 1 ∧ -1 ≤ p.2.1 ∧ p.2.1 ≤ 1 ∧ -1 ≤ p.2.2 ∧ p.2.2 ≤ 1) ∧
  (∀ q ∈ E.qos, ∀ c ∈ q.coherence, 0 ≤ c ∧ c ≤ 1)

instance (E : Lce) : Decidable (ValidLce E) := by
  unfold ValidLce; infer_instance

/-! ## Canonical encoding (`_normalize_lce` / `encode_lce_cbor`)

`LCE.model_dump(mode="python", exclude_none=True)` drops `None` fields
recursively, `_normalize_lce` pops `sig`, and `cbor2.dumps(canonical=True)`
sorts map keys by the canonical CBOR order (byte length of the encoded key
first, then lexicographically).  Each `…ToCv` function lists its entries in
that canonical order. -/

/-- An optional map entry: present fields produce one entry, `None` fields
are omitted entirely. -/
def optEntry (k : String) : Option CV → List (String × CV)
  | some v => [(k, v)]
  | none => []

def padToCv (p : Rat × Rat × Rat) : CV :=
  arrOf [CV.num p.1, CV.num p.2.1, CV.num p.2.2]

def strListToCv (l : List String) : CV := arrOf (l.map CV.txt)

/-- Canonical key order: "goal" < "type" (both length 4). -/
def intentToCv (i : Intent) : CV :=
  smapOf (optEntry "goal" (i.goal.map CV.txt) ++ [("type", CV.txt i.type)])

/-- Canonical key order: "pad" (3) < "tags" (4). -/
def affectToCv (a : Affect) : CV :=
  smapOf (optEntry "pad" (a.pad.map padToCv) ++
    optEntry "tags" (a.tags.map strListToCv))

/-- Canonical key order: "topic" (5) < "ontology" (8). -/
def meaningToCv (m : Meaning) : CV :=
  smapOf (optEntry "topic" (m.topic.map CV.txt) ++
    optEntry "ontology" (m.ontology.map CV.txt))

/-- Canonical key order: "proof" (5) < "attest" (6). -/
def trustToCv (t : TrustCx) : CV :=
  smapOf (optEntry "proof" (t.proofRef.map CV.txt) ++
    optEntry "attest" (t.attest.map strListToCv))

/-- Canonical key order: "t" (1) < "ttl" (3) < "thread" (6). -/
def memoryToCv (m : MemoryCx) : CV :=
  smapOf (optEntry "t" (m.t.map CV.txt) ++ optEntry "ttl" (m.ttl.map CV.txt) ++
    optEntry "thread" (m.thread.map CV.txt))

/-- Canonical key order: "dp" (2) < "share" (5) < "consent" (7). -/
def policyToCv (p : Policy) : CV :=
  smapOf (optEntry "dp" (p.dp.map CV.txt) ++
    optEntry "share" (p.share.map strListToCv) ++
    [("consent", CV.txt p.consent)])

/-- Canonical key order: "coherence" < "stability" (both length 9). -/
def qosToCv (q : QoS) : CV :=
  smapOf (optEntry "coherence" (q.coherence.map CV.num) ++
    optEntry "stability" (q.stability.map CV.txt))

/-- Canonical key order: "hop" (3) < "provenance" (10). -/
def traceToCv (t : TraceCx) : CV :=
  smapOf (optEntry "hop" (t.hop.map (fun n => CV.int n)) ++
    optEntry "provenance" (t.provenance.map strListToCv))

/-- `_normalize_lce`: dump the envelope excluding `None` fields, pop `sig`,
and arrange the entries in canonical CBOR key order
("v" < "qos" < "trace" < "trust" < "affect" < "intent" < "memory" <
"policy" < "meaning", length first then lexicographic). -/
def normalizeLce (E : Lce) : List (String × CV) :=
  [("v", CV.int 1)] ++
  optEntry "qos" (E.qos.map qosToCv) ++
  optEntry "trace" (E.trace.map traceToCv) ++
  optEntry "trust" (E.trust.map trustToCv) ++
  optEntry "affect" (E.affect.map affectToCv) ++
  [("intent", intentToCv E.intent)] ++
  optEntry "memory" (E.memory.map memoryToCv) ++
  [("policy", policyToCv E.policy)] ++
  optEntry "meaning" (E.meaning.map meaningToCv)

/-- `encode_lce_cbor`: canonical CBOR bytes of the normalized envelope. -/
def encodeLceCbor (E : Lce) : CV := CV.enc (smapOf (normalizeLce E))

/-! ## `LCE.model_validate` (pydantic parsing, `extra = "forbid"`) -/

def parseStr : CV → Option String
  | CV.txt s => some s
  | _ => none

def parseStrList : CV → Option (List String)
  | CV.arrNil => some []
  | CV.arrCons v r => do
      let s ← parseStr v
      let t ← parseStrList r
      pure (s :: t)
  | _ => none

/-- A float field: pydantic accepts ints and floats. -/
def parseQ : CV → Option Rat
  | CV.num q => some q
  | CV.int i => some (i : Rat)
  | _ => none

/-- `hop : int, ge=0`. -/
def parseHop : CV → Option Nat
  | CV.int i => if 0 ≤ i then some i.toNat else none
  | _ => none

/-- Parse an optional field of a model: absent is fine, present must parse. -/
def optF (es : List (String × CV)) (k : String) (p : CV → Option α) :
    Option (Option α) :=
  match lookupKey es k with
  | none => some none
  | some v => (p v).map some

/-- `extra = "forbid"`: every key must be a declared field. -/
def keysSub (es : List (String × CV)) (allowed : List String) : Bool :=
  es.all (fun kv => kv.1 ∈ allowed)

def parseIntent (c : CV) : Option Intent := do
  let es ← toAssoc? c
  if keysSub es ["type", "goal"] then
    let tv ← lookupKey es "type"
    let ty ← parseStr tv
    if ty ∈ intentTypeNames then
      let goal ← optF es "goal" parseStr
      pure ⟨ty, goal⟩
    else none
  else none

/-- The `validate_pad` validator: exactly 3 components, each in `[-1, 1]`. -/
def parsePad (c : CV) : Option (Rat × Rat × Rat) :=
  match c with
  | CV.arrCons a (CV.arrCons b (CV.arrCons d CV.arrNil)) => do
      let qa ← parseQ a
      let qb ← parseQ b
      let qd ← parseQ d
      if -1 ≤ qa ∧ qa ≤ 1 ∧ -1 ≤ qb ∧ qb ≤ 1 ∧ -1 ≤ qd ∧ qd ≤ 1 then
        pure (qa, qb, qd)
      else none
  | _ => none

def parseAffect (c : CV) : Option Affect := do
  let es ← toAssoc? c
  if keysSub es ["pad", "tags"] then
    let pad ← optF es "pad" parsePad
    let tags ← optF es "tags" parseStrList
    pure ⟨pad, tags⟩
  else none

def parseMeaning (c : CV) : Option Meaning := do
  let es ← toAssoc? c
  if keysSub es ["topic", "ontology"] then
    let topic ← optF es "topic" parseStr
    let ontology ← optF es "ontology" parseStr
    pure ⟨topic, ontology⟩
  else none

def parseTrust (c : CV) : Option TrustCx := do
  let es ← toAssoc? c
  if keysSub es ["proof", "attest"] then
    let pr ← optF es "proof" parseStr
    let at_ ← optF es "attest" parseStrList
    pure ⟨pr, at_⟩
  else none

def parseMemory (c : CV) : Option MemoryCx := do
  let es ← toAssoc? c
  if keysSub es ["thread", "t", "ttl"] then
    let th ← optF es "thread" parseStr
    let tt ← optF es "t" parseStr
    let ttl ← optF es "ttl" parseStr
    pure ⟨th, tt, ttl⟩
  else none

def parsePolicy (c : CV) : Option Policy := do
  let es ← toAssoc? c
  if keysSub es ["consent", "share", "dp"] then
    let cv ← lookupKey es "consent"
    let consent ← parseStr cv
    if consent ∈ consentNames then
      let share ← optF es "share" parseStrList
      let dp ← optF es "dp" parseStr
      pure ⟨consent, share, dp⟩
    else none
  else none

/-- `coherence : float, ge=0, le=1`. -/
def parseCoherenceField (c : CV) : Option Rat := do
  let q ← parseQ c
  if 0 ≤ q ∧ q ≤ 1 then pure q else none

def parseQoS (c : CV) : Option QoS := do
  let es ← toAssoc? c
  if keysSub es ["coherence", "stability"] then
    let coh ← optF es "coherence" parseCoherenceField
    let st ← optF es "stability" parseStr
    pure ⟨coh, st⟩
  else none

def parseTrace (c : CV) : Option TraceCx := do
  let es ← toAssoc? c
  if keysSub es ["hop", "provenance"] then
    let hop ← optF es "hop" parseHop
    let prov ← optF es "provenance" parseStrList
    pure ⟨hop, prov⟩
  else none

def lceKeys : List String :=
  ["v", "intent", "affect", "meaning", "trust", "memory", "policy", "qos",
   "trace", "sig"]

/-- `v : Literal[1] = 1`: absent is fine (default), present must be `1`. -/
def vOk (es : List (String × CV)) : Bool :=
  match lookupKey es "v" with
  | none => true
  | some (CV.int 1) => true
  | some _ => false

/-- `LCE.model_validate` on a decoded CBOR value. -/
def parseLce (c : CV) : Option Lce := do
  let es ← toAssoc? c
  if keysSub es lceKeys ∧ vOk es then
    let iv ← lookupKey es "intent"
    let intent ← parseIntent iv
    let affect ← optF es "affect" parseAffect
    let meaning ← optF es "meaning" parseMeaning
    let trust ← optF es "trust" parseTrust
    let memory ← optF es "memory" parseMemory
    let pv ← lookupKey es "policy"
    let policy ← parsePolicy pv
    let qos ← optF es "qos" parseQoS
    let trace ← optF es "trace" parseTrace
    let sig := lookupKey es "sig"
    pure ⟨intent, affect, meaning, trust, memory, policy, qos, trace, sig⟩
  else none

/-! ## Round-trip: validating a normalized envelope recovers it -/

@[simp] theorem toAssoc?_smapOf (l : List (String × CV)) :
    toAssoc? (smapOf l) = some l := by
  induction l with
  | nil => rfl
  | cons kv t ih => cases kv; simp [smapOf, toAssoc?, ih]

@[simp] theorem lookupKey_append (l₁ l₂ : List (String × CV)) (k : String) :
    lookupKey (l₁ ++ l₂) k =
      match lookupKey l₁ k with
      | some v => some v
      | none => lookupKey l₂ k := by
  induction l₁ with
  | nil => simp [lookupKey]
  | cons kv t ih =>
      cases kv with
      | mk k' v => by_cases h : k' = k <;> simp [lookupKey, h, ih]

@[simp] theorem lookupKey_optEntry (k' k : String) (o : Option CV) :
    lookupKey (optEntry k' o) k = if k' = k then o else none := by
  cases o <;> by_cases h : k' = k <;> simp [optEntry, lookupKey, h]

@[simp] theorem keysSub_append (l₁ l₂ : List (String × CV)) (a : List String) :
    keysSub (l₁ ++ l₂) a = (keysSub l₁ a && keysSub l₂ a) := by
  simp [keysSub]

theorem keysSub_optEntry (k : String) (o : Option CV) (a : List String)
    (h : k ∈ a) : keysSub (optEntry k o) a = true := by
  cases o <;> simp [optEntry, keysSub, h]

/-- Round-trip for an optional submodel field: if the parser inverts the
encoder on the stored value, `optF` recovers the optional field. -/
theorem optF_roundtrip {α β : Type} (es : List (String × CV)) (k : String)
    (p : CV → Option α) (f : β → CV) (g : β → α) (o : Option β)
    (hl : lookupKey es k = o.map f) (hp : ∀ x, p (f x) = some (g x)) :
    optF es k p = some (o.map g) := by
  cases o <;> simp [optF, hl, hp]

theorem parseStrList_roundtrip (l : List String) :
    parseStrList (strListToCv l) = some l := by
  induction l with
  | nil => rfl
  | cons s t ih =>
      simp [strListToCv, arrOf, parseStrList, parseStr] at ih ⊢; simp [ih]

theorem parseIntent_roundtrip (i : Intent) (h : i.type ∈ intentTypeNames) :
    parseIntent (intentToCv i) = some i := by
  obtain ⟨ty, goal⟩ := i
  simp only [intentTypeNames, List.mem_cons, List.not_mem_nil, or_false] at h
  rcases h with rfl | rfl | rfl | rfl | rfl | rfl | rfl | rfl | rfl | rfl <;>
    cases goal <;> rfl

theorem parsePad_roundtrip (p : Rat × Rat × Rat)
    (h : -1 ≤ p.1 ∧ p.1 ≤ 1 ∧ -1 ≤ p.2.1 ∧ p.2.1 ≤ 1 ∧ -1 ≤ p.2.2 ∧ p.2.2 ≤ 1) :
    parsePad (padToCv p) = some p := by
  obtain ⟨a, b, d⟩ := p
  show (if -1 ≤ a ∧ a ≤ 1 ∧ -1 ≤ b ∧ b ≤ 1 ∧ -1 ≤ d ∧ d ≤ 1 then
    some (a, b, d) else none) = some (a, b, d)
  exact if_pos h

theorem parseAffect_roundtrip (a : Affect)
    (h : ∀ p ∈ a.pad,
      -1 ≤ p.1 ∧ p.1 ≤ 1 ∧ -1 ≤ p.2.1 ∧ p.2.1 ≤ 1 ∧ -1 ≤ p.2.2 ∧ p.2.2 ≤ 1) :
    parseAffect (affectToCv a) = some a := by
  obtain ⟨pad, tags⟩ := a
  cases pad with
  | none =>
      cases tags with
      | none => rfl
      | some l =>
          simp [parseAffect, affectToCv, optEntry, keysSub, lookupKey, optF,
            parseStrList_roundtrip]
  | some p =>
      have hp := parsePad_roundtrip p (h p rfl)
      cases tags <;>
        simp [parseAffect, affectToCv, optEntry, keysSub, lookupKey, optF,
          parseStrList_roundtrip, hp]

theorem parseMeaning_roundtrip (m : Meaning) :
    parseMeaning (meaningToCv m) = some m := by
  obtain ⟨topic, ont⟩ := m
  cases topic <;> cases ont <;> rfl

theorem parseTrust_roundtrip (t : TrustCx) :
    parseTrust (trustToCv t) = some t := by
  obtain ⟨pr, at_⟩ := t
  cases pr <;> cases at_ <;>
    first
    | rfl
    | simp [parseTrust, trustToCv, optEntry, keysSub, lookupKey, optF,
        parseStr, parseStrList_roundtrip]

theorem parseMemory_roundtrip (m : MemoryCx) :
    parseMemory (memoryToCv m) = some m := by
  obtain ⟨th, tt, ttl⟩ := m
  cases th <;> cases tt <;> cases ttl <;> rfl

theorem parsePolicy_roundtrip (p : Policy) (h : p.consent ∈ consentNames) :
    parsePolicy (policyToCv p) = some p := by
  obtain ⟨consent, share, dp⟩ := p
  simp only [consentNames, List.mem_cons, List.not_mem_nil, or_false] at h
  rcases h with rfl | rfl | rfl <;> cases share <;> cases dp <;>
    first
    | rfl
    | simp [parsePolicy, policyToCv, optEntry, keysSub, lookupKey, optF,
        parseStr, parseStrList_roundtrip, consentNames]

theorem parseCoherenceField_roundtrip (c : Rat) (h : 0 ≤ c ∧ c ≤ 1) :
    parseCoherenceField (CV.num c) = some c := by
  show (if 0 ≤ c ∧ c ≤ 1 then some c else none) = some c
  exact if_pos h

theorem parseQoS_roundtrip (q : QoS) (h : ∀ c ∈ q.coherence, 0 ≤ c ∧ c ≤ 1) :
    parseQoS (qosToCv q) = some q := by
  obtain ⟨coh, st⟩ := q
  cases coh with
  | none => cases st <;> rfl
  | some c =>
      have hc := parseCoherenceField_roundtrip c (h c rfl)
      cases st <;>
        simp [parseQoS, qosToCv, optEntry, keysSub, lookupKey, optF, parseStr,
          hc]

theorem parseTrace_roundtrip (t : TraceCx) :
    parseTrace (traceToCv t) = some t := by
  obtain ⟨hop, prov⟩ := t
  cases hop <;> cases prov <;>
    first
    | rfl
    | simp [parseTrace, traceToCv, optEntry, keysSub, lookupKey, optF,
        parseHop, parseStrList_roundtrip]

/-! ### Lookups over a normalized envelope (plus an optional `sig` entry) -/

/-- Entries of a (possibly signed) dumped envelope: the canonical normalized
entries followed by the `sig` entry when present (`sign_lce` builds
`dict(payload), payload["sig"] = …`; dict lookup is order-insensitive). -/
def dumpedLce (E : Lce) (o : Option CV) : List (String × CV) :=
  normalizeLce E ++ optEntry "sig" o

theorem lk_dumped_v (E : Lce) (o : Option CV) :
    lookupKey (dumpedLce E o) "v" = some (CV.int 1) := by
  simp [dumpedLce, normalizeLce, lookupKey]

theorem lk_dumped_qos (E : Lce) (o : Option CV) :
    lookupKey (dumpedLce E o) "qos" = E.qos.map qosToCv := by
  cases h : E.qos <;>
    simp [dumpedLce, normalizeLce, lookupKey, h]

theorem lk_dumped_trace (E : Lce) (o : Option CV) :
    lookupKey (dumpedLce E o) "trace" = E.trace.map traceToCv := by
  cases h : E.trace <;>
    simp [dumpedLce, normalizeLce, lookupKey, h]

theorem lk_dumped_trust (E : Lce) (o : Option CV) :
    lookupKey (dumpedLce E o) "trust" = E.trust.map trustToCv := by
  cases h : E.trust <;>
    simp [dumpedLce, normalizeLce, lookupKey, h]

theorem lk_dumped_affect (E : Lce) (o : Option CV) :
    lookupKey (dumpedLce E o) "affect" = E.affect.map affectToCv := by
  cases h : E.affect <;>
    simp [dumpedLce, normalizeLce, lookupKey, h]

theorem lk_dumped_intent (E : Lce) (o : Option CV) :
    lookupKey (dumpedLce E o) "intent" = some (intentToCv E.intent) := by
  simp [dumpedLce, normalizeLce, lookupKey]

theorem lk_dumped_memory (E : Lce) (o : Option CV) :
    lookupKey (dumpedLce E o) "memory" = E.memory.map memoryToCv := by
  cases h : E.memory <;>
    simp [dumpedLce, normalizeLce, lookupKey, h]

theorem lk_dumped_policy (E : Lce) (o : Option CV) :
    lookupKey (dumpedLce E o) "policy" = some (policyToCv E.policy) := by
  simp [dumpedLce, normalizeLce, lookupKey]

theorem lk_dumped_meaning (E : Lce) (o : Option CV) :
    lookupKey (dumpedLce E o) "meaning" = E.meaning.map meaningToCv := by
  cases h : E.meaning <;>
    simp [dumpedLce, normalizeLce, lookupKey, h]

theorem lk_dumped_sig (E : Lce) (o : Option CV) :
    lookupKey (dumpedLce E o) "sig" = o := by
  cases o <;> simp [dumpedLce, normalizeLce, lookupKey]

/-- Any entry of `optEntry k o` has key `k`. -/
theorem optEntry_key {k : String} {o : Option CV} {kv : String × CV}
    (h : kv ∈ optEntry k o) : kv.1 = k := by
  cases o with
  | none => simp [optEntry] at h
  | some v => simp [optEntry] at h; rw [h]

theorem keysSub_dumped (E : Lce) (o : Option CV) :
    keysSub (dumpedLce E o) lceKeys = true := by
  apply List.all_eq_true.mpr
  intro kv hkv
  simp only [dumpedLce, normalizeLce, List.append_assoc, List.cons_append,
    List.nil_append, List.mem_append, List.mem_cons] at hkv
  rcases hkv with rfl | h | h | h | h | rfl | h | rfl | h | h
  · simp [lceKeys]
  · rw [optEntry_key h]; simp [lceKeys]
  · rw [optEntry_key h]; simp [lceKeys]
  · rw [optEntry_key h]; simp [lceKeys]
  · rw [optEntry_key h]; simp [lceKeys]
  · simp [lceKeys]
  · rw [optEntry_key h]; simp [lceKeys]
  · simp [lceKeys]
  · rw [optEntry_key h]; simp [lceKeys]
  · rw [optEntry_key h]; simp [lceKeys]

theorem vOk_dumped (E : Lce) (o : Option CV) : vOk (dumpedLce E o) = true := by
  simp [vOk, lk_dumped_v]

/-- `LCE.model_validate` inverts the canonical dump: validating the
normalized entries of a valid envelope (with an optional `sig` entry
appended) reconstructs the envelope with exactly that `sig` field. -/
theorem parseLce_dumped (E : Lce) (o : Option CV) (hv : ValidLce E) :
    parseLce (smapOf (dumpedLce E o)) = some { E with sig := o } := by
  obtain ⟨h1, h2, h3, h4⟩ := hv
  have hI := parseIntent_roundtrip E.intent h1
  have hP := parsePolicy_roundtrip E.policy h2
  have hAf : optF (dumpedLce E o) "affect" parseAffect = some E.affect := by
    rw [optF, lk_dumped_affect]
    cases ha : E.affect with
    | none => rfl
    | some a => simp [parseAffect_roundtrip a (h3 a (by simp [ha]))]
  have hQo : optF (dumpedLce E o) "qos" parseQoS = some E.qos := by
    rw [optF, lk_dumped_qos]
    cases hq : E.qos with
    | none => rfl
    | some q => simp [parseQoS_roundtrip q (h4 q (by simp [hq]))]
  have hMe : optF (dumpedLce E o) "meaning" parseMeaning = some E.meaning := by
    rw [optF, lk_dumped_meaning]
    cases E.meaning with
    | none => rfl
    | some m => simp [parseMeaning_roundtrip m]
  have hTr : optF (dumpedLce E o) "trust" parseTrust = some E.trust := by
    rw [optF, lk_dumped_trust]
    cases E.trust with
    | none => rfl
    | some t => simp [parseTrust_roundtrip t]
  have hMm : optF (dumpedLce E o) "memory" parseMemory = some E.memory := by
    rw [optF, lk_dumped_memory]
    cases E.memory with
    | none => rfl
    | some m => simp [parseMemory_roundtrip m]
  have hTc : optF (dumpedLce E o) "trace" parseTrace = some E.trace := by
    rw [optF, lk_dumped_trace]
    cases E.trace with
    | none => rfl
    | some t => simp [parseTrace_roundtrip t]
  simp [parseLce, toAssoc?_smapOf, keysSub_dumped, vOk_dumped,
    lk_dumped_intent, lk_dumped_policy, lk_dumped_sig, hI, hP, hAf, hQo, hMe,
    hTr, hMm, hTc]

/-! ## COSE_Sign1 signing layer (`cbor_cose.py`)

Ed25519 is abstracted as a deterministic signature scheme: `sign` maps a
private key (seed) and a message byte string to raw signature bytes, `pub`
derives the public key, and `verify` checks a signature.  The correctness
property of Ed25519 (`verify (pub k) m (sign k m) = true`) is a hypothesis
of the theorems that need it. -/

structure SigScheme where
  sign : Nat → CV → List Nat
  pub : Nat → Nat
  verify : Nat → CV → List Nat → Bool

/-- The protected-header entries: `{1: -8}` plus `{4: key_id}` when the key
id is truthy (non-`None` and non-empty), in canonical key order `1 < 4`. -/
def headerEntries (kid : Option (List Nat)) : List (Int × CV) :=
  [((1 : Int), CV.int (-8))] ++
    (match kid with
     | some b => if b = [] then [] else [((4 : Int), CV.bytes b)]
     | none => [])

/-- `_encode_protected_header`: canonical CBOR bytes of the header map. -/
def encodeProtectedHeader (kid : Option (List Nat)) : CV :=
  CV.enc (imapOf (headerEntries kid))

/-- `_encode_sig_structure`:
`cbor2.dumps(["Signature1", protected, external_aad, payload])`. -/
def sigStructure (ph : CV) (aad : List Nat) (payload : CV) : CV :=
  CV.enc (arrOf [CV.txt "Signature1", ph, CV.bytes aad, payload])

/-- `create_cose_sign1`: returns `(cose, payload, protected_header,
signature)`.  `external_aad` of `None` (or empty) becomes `b""`. -/
def createCoseSign1 (S : SigScheme) (E : Lce) (k : Nat)
    (kid : Option (List Nat)) (aad : Option (List Nat)) :
    CV × CV × CV × List Nat :=
  let payload := encodeLceCbor E
  let ph := encodeProtectedHeader kid
  let aadB := aad.getD []
  let ss := sigStructure ph aadB payload
  let sg := S.sign k ss
  (CV.enc (arrOf [ph, CV.imapNil, payload, CV.bytes sg]), payload, ph, sg)

/-- `isinstance(x, Mapping)`. -/
def isMappingCv : CV → Bool
  | CV.smapNil => true
  | CV.smapCons _ _ _ => true
  | CV.imapNil => true
  | CV.imapCons _ _ _ => true
  | _ => false

/-- The `unprotected is not None and not isinstance(unprotected, Mapping)`
check: `None` or any map is accepted. -/
def isMapOrNone : CV → Bool
  | CV.null => true
  | v => isMappingCv v

/-- `_parse_cose_sign1`: decode the blob, check the 4-element array shape
and element types, decode the protected header and check the declared
algorithm is EdDSA (-8).  Raw signature bytes are `CV.bytes`. -/
def parseCoseSign1 (cose : CV) :
    Except PyErr (CV × List (Int × CV) × CV × List Nat) :=
  match loads cose with
  | none => .error .cborDecodeError
  | some d =>
      match d with
      | CV.arrCons p (CV.arrCons u (CV.arrCons pl
          (CV.arrCons (CV.bytes sg) CV.arrNil))) =>
          if ¬ isBytesCv p then
            .error (.coseError "COSE protected header must be bytes")
          else if ¬ isBytesCv pl then
            .error (.coseError "COSE payload must be bytes")
          else if ¬ isMapOrNone u then
            .error (.coseError "COSE unprotected header must be a map")
          else
            match loads p with
            | none => .error .cborDecodeError
            | some hv =>
                match toIAssoc? hv with
                | none => .error .attributeError
                | some hm =>
                    match ilookup hm 1 with
                    | some (CV.int a) =>
                        if a = -8 then .ok (p, hm, pl, sg)
                        else .error (.coseError "Unsupported COSE algorithm")
                    | _ => .error (.coseError "Unsupported COSE algorithm")
      | CV.arrCons p (CV.arrCons _u (CV.arrCons pl
          (CV.arrCons _ CV.arrNil))) =>
          if ¬ isBytesCv p then
            .error (.coseError "COSE protected header must be bytes")
          else if ¬ isBytesCv pl then
            .error (.coseError "COSE payload must be bytes")
          else .error (.coseError "COSE signature must be bytes")
      | _ => .error (.coseError "Invalid COSE_Sign1 structure")

/-- `verify_cose_sign1`: parse, recompute the signing input, verify the
signature, then decode the payload and validate it back into an `LCE`. -/
def verifyCoseSign1 (S : SigScheme) (cose : CV) (p : Nat)
    (aad : Option (List Nat)) : Except PyErr (Lce × Option CV) :=
  match parseCoseSign1 cose with
  | .error e => .error e
  | .ok (ph, hm, pl, sg) =>
      let ss := sigStructure ph (aad.getD []) pl
      if S.verify p ss sg then
        match loads pl with
        | none => .error .cborDecodeError
        | some d =>
            if isMappingCv d then
              match parseLce d with
              | some lce => .ok (lce, ilookup hm 4)
              | none => .error .validationError
            else .error (.coseError "COSE payload must decode to a map")
      else .error (.coseError "Invalid COSE signature")

/-- `sign_lce`: sign, then revalidate the normalized payload with the
base64url-encoded blob stored in `sig` (`LCE.model_validate` can fail, hence
`Option`). -/
def signLce (S : SigScheme) (E : Lce) (k : Nat) (kid : Option (List Nat))
    (aad : Option (List Nat)) : Option Lce :=
  let cose := (createCoseSign1 S E k kid aad).1
  parseLce (smapOf (normalizeLce E ++ [("sig", cose)]))

/-- `verify_signed_lce`: decode the embedded blob, parse it (outside any
`try`), compare the embedded payload against the canonical re-encoding of
the envelope, then verify; only `CoseError` from the verification step is
caught and collapsed to `False`. -/
def verifySignedLce (S : SigScheme) (E : Lce) (p : Nat)
    (aad : Option (List Nat)) : Except PyErr Bool :=
  match E.sig with
  | none => .error (.coseError "Missing sig field on LCE")
  | some cose =>
      match parseCoseSign1 cose with
      | .error e => .error e
      | .ok (_, _, pl, _) =>
          if pl ≠ encodeLceCbor E then .ok false
          else
            match verifyCoseSign1 S cose p aad with
            | .ok _ => .ok true
            | .error (.coseError _) => .ok false
            | .error e => .error e

/-- The key id that `sign` embeds in the protected header and that `verify`
returns: the supplied one when truthy, `None` otherwise. -/
def embeddedKid (kid : Option (List Nat)) : Option CV :=
  match kid with
  | some b => if b = [] then none else some (CV.bytes b)
  | none => none

/-! ### Helper lemmas for the signing layer -/

@[simp] theorem toIAssoc?_imapOf (l : List (Int × CV)) :
    toIAssoc? (imapOf l) = some l := by
  induction l with
  | nil => rfl
  | cons kv t ih => cases kv; simp [imapOf, toIAssoc?, ih]

/-- Normalization ignores the `sig` field. -/
theorem normalizeLce_sig (E : Lce) (o : Option CV) :
    normalizeLce { E with sig := o } = normalizeLce E := rfl

/-- Validity ignores the `sig` field. -/
theorem validLce_sig (E : Lce) (o : Option CV) :
    ValidLce { E with sig := o } ↔ ValidLce E := Iff.rfl

theorem dumpedLce_none (E : Lce) : dumpedLce E none = normalizeLce E := by
  simp [dumpedLce, optEntry]

/-- `smapOf` is injective. -/
theorem smapOf_inj {a b : List (String × CV)} (h : smapOf a = smapOf b) :
    a = b := by
  have := congrArg toAssoc? h
  simpa using this

/-- The canonical encoding is injective on valid envelopes, up to the
(excluded) `sig` field: equal normalized forms mean equal sig-stripped
envelopes. -/
theorem normalizeLce_inj {E M : Lce} (hE : ValidLce E) (hM : ValidLce M)
    (h : normalizeLce E = normalizeLce M) :
    ({ E with sig := none } : Lce) = { M with sig := none } := by
  have he := parseLce_dumped E none hE
  have hm := parseLce_dumped M none hM
  rw [dumpedLce_none] at he hm
  rw [h, hm] at he
  exact (Option.some.inj he).symm

/-- Two signing calls agree whenever the canonical content agrees (the
signature scheme and the encodings are deterministic functions). -/
theorem createCoseSign1_congr (S : SigScheme) (k : Nat)
    (kid aad : Option (List Nat)) {E M : Lce}
    (h : normalizeLce E = normalizeLce M) :
    createCoseSign1 S E k kid aad = createCoseSign1 S M k kid aad := by
  unfold createCoseSign1 encodeLceCbor
  rw [h]

/-- Parsing a freshly created COSE_Sign1 blob succeeds and returns its
components. -/
theorem parseCoseSign1_create (S : SigScheme) (E : Lce) (k : Nat)
    (kid aad : Option (List Nat)) :
    parseCoseSign1 (createCoseSign1 S E k kid aad).1 =
      .ok (encodeProtectedHeader kid, headerEntries kid, encodeLceCbor E,
        S.sign k (sigStructure (encodeProtectedHeader kid) (aad.getD [])
          (encodeLceCbor E))) := by
  unfold createCoseSign1 parseCoseSign1
  simp [loads, arrOf, isBytesCv, isMapOrNone, isMappingCv,
    encodeProtectedHeader, ilookup, encodeLceCbor]

/-- The embedded key id returned by verification. -/
theorem ilookup_headerEntries_4 (kid : Option (List Nat)) :
    ilookup (headerEntries kid) 4 = embeddedKid kid := by
  cases kid with
  | none => rfl
  | some b =>
      by_cases hb : b = [] <;> simp [headerEntries, embeddedKid, ilookup, hb]

/-- The canonically dumped (sig-stripped) envelope revalidates to the
envelope with `sig` removed. -/
theorem parseLce_normalized (E : Lce) (hE : ValidLce E) :
    parseLce (smapOf (normalizeLce E)) = some { E with sig := none } := by
  have h := parseLce_dumped E none hE
  rwa [dumpedLce_none] at h

@[simp] theorem isMappingCv_smapOf (l : List (String × CV)) :
    isMappingCv (smapOf l) = true := by
  cases l with
  | nil => rfl
  | cons kv t => cases kv; rfl

/-! ### Concrete instances used by the witnesses -/

/-- A concrete correct deterministic signature scheme (witness instance):
the signature of any message under key `k` is `[k]`, the public key equals
the private key, and verification accepts exactly that signature. -/
def sigScheme0 : SigScheme :=
  { sign := fun k _ => [k]
    pub := fun k => k
    verify := fun p _ s => s == [p] }

/-- A concrete minimal valid envelope. -/
def lce0 : Lce :=
  { intent := { type := "ask", goal := none }
    affect := none
    meaning := none
    trust := none
    memory := none
    policy := { consent := "team", share := none, dp := none }
    qos := none
    trace := none
    sig := none }

/-- C1.  Sign/verify round-trip: for every valid envelope (with or without a
pre-existing `sig` field), every keypair of a correct deterministic
signature scheme, and every optional key id (and external AAD), verifying
the wire form produced by `create_cose_sign1` with the matching public key
succeeds and returns the envelope with `sig` stripped together with the
embedded key id (`None` when no truthy key id was supplied). -/
theorem sign_verify_roundtrip (S : SigScheme)
    (hS : ∀ k m, S.verify (S.pub k) m (S.sign k m) = true)
    (E : Lce) (hE : ValidLce E) (k : Nat) (kid aad : Option (List Nat)) :
    verifyCoseSign1 S (createCoseSign1 S E k kid aad).1 (S.pub k) aad =
      .ok ({ E with sig := none }, embeddedKid kid) := by
  unfold verifyCoseSign1
  rw [parseCoseSign1_create]
  simp [hS, loads, encodeLceCbor, parseLce_normalized E hE,
    ilookup_headerEntries_4]

/-- C1 witness: a concrete valid envelope signed and verified with a
concrete correct scheme. -/
theorem sign_verify_roundtrip_witness :
    verifyCoseSign1 sigScheme0
        (createCoseSign1 sigScheme0 lce0 7 (some [1, 2]) none).1
        (sigScheme0.pub 7) none =
      .ok ({ lce0 with sig := none }, embeddedKid (some [1, 2])) :=
  sign_verify_roundtrip sigScheme0 (fun k m => by simp [sigScheme0])
    lce0 (by decide) 7 (some [1, 2]) none

/-- C3.  Signing determinism: signing is a pure function of the canonical
(sig-stripped) envelope content, the private key, the key id and the
external AAD — two runs on identical content produce byte-identical
canonical payload, protected header, signature, and wire blob. -/
theorem sign_deterministic (S : SigScheme) (k : Nat)
    (kid aad : Option (List Nat)) (E1 E2 : Lce)
    (h : normalizeLce E1 = normalizeLce E2) :
    createCoseSign1 S E1 k kid aad = createCoseSign1 S E2 k kid aad :=
  createCoseSign1_congr S k kid aad h

/-- C3 witness: two runs over the same content (one envelope carrying a
stale `sig` field, which does not influence the output) coincide. -/
theorem sign_deterministic_witness :
    createCoseSign1 sigScheme0 lce0 7 none none =
      createCoseSign1 sigScheme0 { lce0 with sig := some (CV.bytes [9]) } 7
        none none :=
  sign_deterministic sigScheme0 7 none none lce0
    { lce0 with sig := some (CV.bytes [9]) } rfl

/-- C9.  Signing is idempotent with respect to an existing signature:
signing the signed envelope again (same key, key id and AAD) returns the
signed envelope unchanged, because `_normalize_lce` strips any pre-existing
`sig` before canonicalization. -/
theorem sign_idempotent (S : SigScheme) (E : Lce) (hE : ValidLce E)
    (k : Nat) (kid aad : Option (List Nat)) :
    (signLce S E k kid aad).bind (fun S1 => signLce S S1 k kid aad) =
      signLce S E k kid aad := by
  have h1 : signLce S E k kid aad =
      some { E with sig := some (createCoseSign1 S E k kid aad).1 } :=
    parseLce_dumped E (some (createCoseSign1 S E k kid aad).1) hE
  have hc : createCoseSign1 S
      { E with sig := some (createCoseSign1 S E k kid aad).1 } k kid aad =
      createCoseSign1 S E k kid aad :=
    createCoseSign1_congr S k kid aad rfl
  have h2 : signLce S
      { E with sig := some (createCoseSign1 S E k kid aad).1 } k kid aad =
      some { E with sig := some (createCoseSign1 S E k kid aad).1 } := by
    show parseLce _ = _
    rw [show (createCoseSign1 S
        { E with sig := some (createCoseSign1 S E k kid aad).1 } k kid
        aad).1 = (createCoseSign1 S E k kid aad).1 from congrArg Prod.fst hc]
    exact parseLce_dumped
      { E with sig := some (createCoseSign1 S E k kid aad).1 }
      (some (createCoseSign1 S E k kid aad).1) hE
  rw [h1, Option.some_bind, h2]

/-- C9 witness: a concrete envelope signed twice equals it signed once. -/
theorem sign_idempotent_witness :
    (signLce sigScheme0 lce0 7 none none).bind
        (fun S1 => signLce sigScheme0 S1 7 none none) =
      signLce sigScheme0 lce0 7 none none :=
  sign_idempotent sigScheme0 lce0 (by decide) 7 none none

/-- C2.  Tamper detection: take a valid envelope `E` signed into `Esigned`;
any valid envelope `M` that keeps the original embedded signature but
differs from `E` in some non-`sig` field fails embedded verification (for
every public key and AAD, in particular the correct ones): the canonical
re-encoding of `M` with `sig` stripped differs from the payload carried in
the signature blob, so `verify_signed_lce` returns `False`. -/
theorem tamper_detected (S : SigScheme) (E M Esigned : Lce)
    (hE : ValidLce E) (hM : ValidLce M) (k : Nat)
    (kid aad : Option (List Nat))
    (hsigned : signLce S E k kid aad = some Esigned)
    (hkeep : M.sig = Esigned.sig)
    (hmut : ({ M with sig := none } : Lce) ≠ { E with sig := none })
    (p : Nat) (aad2 : Option (List Nat)) :
    verifySignedLce S M p aad2 = .ok false := by
  have h1 : signLce S E k kid aad =
      some { E with sig := some (createCoseSign1 S E k kid aad).1 } :=
    parseLce_dumped E (some (createCoseSign1 S E k kid aad).1) hE
  rw [h1] at hsigned
  have hEs := Option.some.inj hsigned
  rw [← hEs] at hkeep
  have hne : encodeLceCbor E ≠ encodeLceCbor M := by
    intro heq
    unfold encodeLceCbor at heq
    exact hmut (normalizeLce_inj hM hE (smapOf_inj (CV.enc.inj heq)).symm)
  unfold verifySignedLce
  rw [hkeep]
  show (match parseCoseSign1 (createCoseSign1 S E k kid aad).1 with
    | .error e => .error e
    | .ok (_, _, pl, _) =>
        if pl ≠ encodeLceCbor M then Except.ok false
        else
          match verifyCoseSign1 S (createCoseSign1 S E k kid aad).1 p aad2
            with
          | .ok _ => Except.ok true
          | .error (.coseError _) => Except.ok false
          | .error e => Except.error e) = Except.ok false
  rw [parseCoseSign1_create]
  simp [encodeLceCbor] at hne ⊢
  intro heq
  exact absurd heq hne

/-- The blob obtained by signing `lce0` under key 7. -/
def cose0 : CV := (createCoseSign1 sigScheme0 lce0 7 none none).1

/-- `lce0` signed, then mutated (intent changed from "ask" to "tell") while
keeping the original embedded signature. -/
def lce0tampered : Lce :=
  { lce0 with intent := { type := "tell", goal := none }, sig := some cose0 }

/-- C2 witness: the concrete mutated envelope fails embedded verification
against the correct public key. -/
theorem tamper_detected_witness :
    verifySignedLce sigScheme0 lce0tampered (sigScheme0.pub 7) none =
      .ok false :=
  tamper_detected sigScheme0 lce0 lce0tampered { lce0 with sig := some cose0 }
    (by decide) (by decide) 7 none none
    (parseLce_dumped lce0 (some cose0) (by decide)) rfl (by decide)
    (sigScheme0.pub 7) none

/-! ## The JWS convenience verifier (`lri/ltp.py`, `verify`)

`ltp.verify` takes the envelope as a Python dict whose `sig` entry is a JWS
compact string, and wraps everything after the `if not sig` check in
`try: … except Exception: return False`, so it returns a `Bool` and never
raises.  The canonical JSON serialization, UTF-8 and base64url codecs are
abstract parameters (`cjs`, `u8e`, `b64d`, `u8d`); the payload comparison
happens on the decoded strings exactly as in the source. -/

def ltpVerify (S : SigScheme) (cjs : List (String × CV) → String)
    (u8e : String → List Nat) (b64d : String → Option (List Nat))
    (u8d : List Nat → Option String)
    (d : List (String × CV)) (p : Nat) : Bool :=
  match lookupKey d "sig" with
  | none => false
  | some (CV.txt s) =>
      if s = "" then false
      else
        match s.splitOn "." with
        | [h64, p64, s64] =>
            let expected := cjs (d.filter (fun kv => kv.1 ≠ "sig"))
            match b64d p64 with
            | none => false
            | some pb =>
                match u8d pb with
                | none => false
                | some actual =>
                    if actual ≠ expected then false
                    else
                      match b64d s64 with
                      | none => false
                      | some sgb =>
                          S.verify p (CV.bytes (u8e (h64 ++ "." ++ p64))) sgb
        | _ => false
  | some _ => false

/-- C4 counterexample: the claim "malformed wire structure yields the
boolean result `false` rather than raising" is false for the convenience
API `verify_signed_lce`: a `sig` blob decoding to a non-array raises
`CoseError` (the `_parse_cose_sign1` call sits outside the `try`). -/
theorem conv_verify_raises_counterexample :
    verifySignedLce sigScheme0 { lce0 with sig := some (CV.enc (CV.int 5)) }
        0 none =
      .error (.coseError "Invalid COSE_Sign1 structure") ∧
    verifySignedLce sigScheme0 { lce0 with sig := some (CV.enc (CV.int 5)) }
        0 none ≠ .ok false :=
  ⟨rfl, fun h => nomatch h⟩

/-- C4 (amended).  Failure collapsing in the convenience verify APIs:

* in `verify_signed_lce`, a cryptographic verification failure — and also an
  embedded-payload mismatch — yields `.ok false`, but a wire blob that
  `_parse_cose_sign1` rejects (malformed structure or unsupported
  algorithm) raises that error instead of returning `false`;
* `ltp.verify` returns the boolean `false` (it never raises) for a
  malformed JWS (number of dot-segments ≠ 3), for a payload mismatch, and
  for a cryptographic verification failure. -/
theorem conv_verify_failure_modes :
    (∀ (S : SigScheme) (E : Lce) (p : Nat) (aad : Option (List Nat))
        (c : CV) (e : PyErr), E.sig = some c → parseCoseSign1 c = .error e →
        verifySignedLce S E p aad = .error e) ∧
    (∀ (S : SigScheme) (E : Lce) (p : Nat) (aad : Option (List Nat)) (c : CV)
        (ph : CV) (hm : List (Int × CV)) (pl : CV) (sg : List Nat),
        E.sig = some c → parseCoseSign1 c = .ok (ph, hm, pl, sg) →
        pl ≠ encodeLceCbor E → verifySignedLce S E p aad = .ok false) ∧
    (∀ (S : SigScheme) (E : Lce) (p : Nat) (aad : Option (List Nat)) (c : CV)
        (ph : CV) (hm : List (Int × CV)) (pl : CV) (sg : List Nat),
        E.sig = some c → parseCoseSign1 c = .ok (ph, hm, pl, sg) →
        pl = encodeLceCbor E →
        S.verify p (sigStructure ph (aad.getD []) pl) sg = false →
        verifySignedLce S E p aad = .ok false) ∧
    (∀ (S : SigScheme) cjs u8e b64d u8d (d : List (String × CV)) (p : Nat)
        (s : String), lookupKey d "sig" = some (CV.txt s) →
        (s.splitOn ".").length ≠ 3 →
        ltpVerify S cjs u8e b64d u8d d p = false) ∧
    (∀ (S : SigScheme) cjs u8e b64d u8d (d : List (String × CV)) (p : Nat)
        (s : String) (h64 p64 s64 : String) (pb : List Nat)
        (actual : String), lookupKey d "sig" = some (CV.txt s) → s ≠ "" →
        s.splitOn "." = [h64, p64, s64] → b64d p64 = some pb →
        u8d pb = some actual →
        actual ≠ cjs (d.filter (fun kv => kv.1 ≠ "sig")) →
        ltpVerify S cjs u8e b64d u8d d p = false) ∧
    (∀ (S : SigScheme) cjs u8e b64d u8d (d : List (String × CV)) (p : Nat)
        (s : String) (h64 p64 s64 : String) (pb sgb : List Nat),
        lookupKey d "sig" = some (CV.txt s) → s ≠ "" →
        s.splitOn "." = [h64, p64, s64] → b64d p64 = some pb →
        u8d pb = some (cjs (d.filter (fun kv => kv.1 ≠ "sig"))) →
        b64d s64 = some sgb →
        S.verify p (CV.bytes (u8e (h64 ++ "." ++ p64))) sgb = false →
        ltpVerify S cjs u8e b64d u8d d p = false) := by
  refine ⟨?_, ?_, ?_, ?_, ?_, ?_⟩
  · intro S E p aad c e hsig hparse
    unfold verifySignedLce
    simp only [hsig, hparse]
  · intro S E p aad c ph hm pl sg hsig hparse hne
    unfold verifySignedLce
    simp only [hsig, hparse]
    simp [hne]
  · intro S E p aad c ph hm pl sg hsig hparse hpl hfail
    unfold verifySignedLce
    simp only [hsig, hparse]
    rw [if_neg (by simp [hpl])]
    unfold verifyCoseSign1
    simp only [hparse, hfail]
    simp
  · intro S cjs u8e b64d u8d d p s hlookup hlen
    unfold ltpVerify
    simp only [hlookup]
    by_cases hs : s = ""
    · simp [hs]
    · rw [if_neg hs]
      cases h1 : s.splitOn "." with
      | nil => rfl
      | cons a t1 =>
          cases t1 with
          | nil => rfl
          | cons b t2 =>
              cases t2 with
              | nil => rfl
              | cons c t3 =>
                  cases t3 with
                  | nil => exact absurd (by rw [h1]; rfl) hlen
                  | cons e t4 => rfl
  · intro S cjs u8e b64d u8d d p s h64 p64 s64 pb actual hlookup hs hsp
      hb64 hu8 hne
    unfold ltpVerify
    simp only [hlookup]
    rw [if_neg hs]
    simp only [hsp, hb64, hu8]
    simp
    intro h
    exact absurd h (by simpa using hne)
  · intro S cjs u8e b64d u8d d p s h64 p64 s64 pb sgb hlookup hs hsp hb64
      hu8 hb64s hfail
    unfold ltpVerify
    simp only [hlookup]
    rw [if_neg hs]
    simp only [hsp, hb64, hu8, hb64s]
    simp [hfail]

/-- A well-formed blob over `lce0` carrying a wrong signature. -/
def badSigCose : CV :=
  CV.enc (arrOf [encodeProtectedHeader none, CV.imapNil, encodeLceCbor lce0,
    CV.bytes [99]])

/-- C4 witness: a cryptographic verification failure in `verify_signed_lce`
yields the boolean `false`. -/
theorem conv_verify_failure_modes_witness :
    verifySignedLce sigScheme0 { lce0 with sig := some badSigCose } 0 none =
      .ok false :=
  conv_verify_failure_modes.2.2.1 sigScheme0
    { lce0 with sig := some badSigCose } 0 none badSigCose
    (encodeProtectedHeader none) [((1 : Int), CV.int (-8))]
    (encodeLceCbor lce0) [99] rfl rfl rfl (by decide)

/-! ## Liminal Session Store (`lpi/lss/__init__.py`)

Python floats are modelled by `ℚ`.  The two transcendental operations
(`math.exp` and `** 0.5`) are the `Ops` record; theorems state the
inequalities they need about `Ops` as hypotheses (true of the real
functions), and witnesses instantiate `Ops` with concrete rational
functions satisfying them. -/

structure Ops where
  exp : Rat → Rat
  sqrt : Rat → Rat

/-- The `INTENT_VECTORS` static lookup table. -/
def INTENT_VECTORS : List (String × List Rat) :=
  [("ask", [1, 1/2, 0, 0, 0, 1/5]),
   ("tell", [1/2, 1, 0, 0, 1/10, 1/5]),
   ("propose", [1/10, 1/10, 1, 3/5, 0, 3/10]),
   ("confirm", [0, 0, 3/5, 1, 0, 1/10]),
   ("notify", [0, 2/5, 0, 0, 1, 0]),
   ("sync", [1/5, 2/5, 1/10, 0, 4/5, 3/10]),
   ("plan", [3/10, 3/10, 1/2, 3/10, 0, 1]),
   ("agree", [0, 1/10, 3/5, 9/10, 0, 1/10]),
   ("disagree", [1/5, 1/5, 2/5, 7/10, 0, 1/5]),
   ("reflect", [2/5, 3/5, 1/10, 0, 0, 4/5])]

def vecLookup : List (String × List Rat) → String → Option (List Rat)
  | [], _ => none
  | (k, v) :: t, s => if k = s then some v else vecLookup t s

/-- `INTENT_VECTORS.get(intent, INTENT_VECTORS["tell"])`: unknown intent
categories fall back to the "tell" vector. -/
def intentVec (s : String) : List Rat :=
  match vecLookup INTENT_VECTORS s with
  | some v => v
  | none => [1/2, 1, 0, 0, 1/10, 1/5]

structure LSSMessage where
  lce : Lce
  payload : Option CV
  timestamp : Int
  deriving DecidableEq, Repr

structure CoherenceResult where
  overall : Rat
  intentSimilarity : Rat
  affectStability : Rat
  semanticAlignment : Rat
  deriving DecidableEq, Repr

/-- The `details` dicts of the two drift event kinds. -/
inductive DriftDetails where
  | cohDrop (previous current : Rat)
  | topicShift (window : List String) (uniqueTopics : Nat)
  deriving DecidableEq, Repr

structure DriftEvent where
  threadId : String
  type : String
  severity : String
  timestamp : Int
  details : DriftDetails
  deriving DecidableEq, Repr

structure SessionMetrics where
  coherence : CoherenceResult
  previousCoherence : Option CoherenceResult
  driftEvents : List DriftEvent
  updatedAt : Int
  deriving DecidableEq, Repr

structure SessionMetadata where
  createdAt : Int
  updatedAt : Int
  messageCount : Nat
  deriving DecidableEq, Repr

structure LSSSession where
  threadId : String
  messages : List LSSMessage
  coherence : Rat
  metrics : SessionMetrics
  metadata : SessionMetadata
  deriving DecidableEq, Repr

/-- The `LSS.__init__` configuration parameters. -/
structure LSSConfig where
  maxMessages : Nat
  sessionTtl : Int
  coherenceWindow : Nat
  driftMinCoherence : Rat
  driftDropThreshold : Rat
  topicShiftWindow : Nat
  deriving DecidableEq, Repr

/-- The constructor defaults. -/
def defaultConfig : LSSConfig :=
  { maxMessages := 1000, sessionTtl := 3600000, coherenceWindow := 10,
    driftMinCoherence := 3/5, driftDropThreshold := 1/5,
    topicShiftWindow := 5 }

/-- Python list slicing `xs[-n:]`: the last `n` elements — except that
`xs[-0:]` is the whole list. -/
def pySliceLast {α : Type} (n : Nat) (xs : List α) : List α :=
  if n = 0 then xs else xs.drop (xs.length - n)

def dotProd (v w : List Rat) : Rat := (List.zipWith (· * ·) v w).sum

def sumSq (v : List Rat) : Rat := (v.map (fun a => a * a)).sum

/-- `LSS._cosine_similarity`; a zero magnitude yields 0. -/
def cosineSimilarity (ops : Ops) (v w : List Rat) : Rat :=
  let dot := dotProd v w
  let mag1 := ops.sqrt (sumSq v)
  let mag2 := ops.sqrt (sumSq w)
  if mag1 = 0 ∨ mag2 = 0 then 0 else dot / (mag1 * mag2)

/-- `LSS._intent_similarity`: average cosine similarity of the intent
vectors over consecutive message pairs. -/
def intentSimilarity (ops : Ops) (messages : List LSSMessage) : Rat :=
  if messages.length < 2 then 1
  else
    let pairs := List.zip messages.dropLast messages.tail
    let sims := pairs.map (fun pr =>
      cosineSimilarity ops (intentVec pr.1.lce.intent.type)
        (intentVec pr.2.lce.intent.type))
    if sims.length = 0 then 1 else sims.sum / (sims.length : Rat)

/-- The PAD tuples of the messages that carry one. -/
def padsOf (messages : List LSSMessage) : List (Rat × Rat × Rat) :=
  messages.filterMap (fun m =>
    match m.lce.affect with
    | some a => a.pad
    | none => none)

/-- `LSS._variance` (population variance). -/
def variance (values : List Rat) : Rat :=
  if values.length = 0 then 0
  else
    let mean := values.sum / (values.length : Rat)
    ((values.map (fun v => (v - mean) * (v - mean))).sum) /
      (values.length : Rat)

/-- `LSS._affect_stability`: `exp(-avg_variance * 5)` over the
PAD-carrying messages, 1.0 with fewer than 2 samples. -/
def affectStability (ops : Ops) (messages : List LSSMessage) : Rat :=
  let pads := padsOf messages
  if pads.length < 2 then 1
  else
    let v1 := variance (pads.map (fun p => p.1))
    let v2 := variance (pads.map (fun p => p.2.1))
    let v3 := variance (pads.map (fun p => p.2.2))
    let avgVariance := (v1 + v2 + v3) / 3
    ops.exp (-(avgVariance * 5))

/-- The topics of the messages carrying a truthy topic string (Python
truthiness: the empty string does not count). -/
def topicsOf (messages : List LSSMessage) : List String :=
  messages.filterMap (fun m =>
    match m.lce.meaning with
    | some me =>
        match me.topic with
        | some t => if t = "" then none else some t
        | none => none
    | none => none)

/-- `LSS._semantic_alignment`: `1 / len(set(topics))`, 1.0 with fewer than
2 topic-bearing messages. -/
def semanticAlignment (messages : List LSSMessage) : Rat :=
  let topics := topicsOf messages
  if topics.length < 2 then 1
  else (1 : Rat) / (topics.dedup.length : Rat)

/-- `LSS.calculate_coherence`: the window is the last `coherence_window`
messages, `overall = 0.4*intent + 0.3*affect + 0.3*semantic` clamped to
[0, 1]. -/
def calculateCoherence (cfg : LSSConfig) (ops : Ops)
    (messages : List LSSMessage) : CoherenceResult :=
  if messages.length < 2 then ⟨1, 1, 1, 1⟩
  else
    let window := pySliceLast cfg.coherenceWindow messages
    let isim := intentSimilarity ops window
    let astab := affectStability ops window
    let salign := semanticAlignment window
    let overall := max 0 (min 1 (2/5 * isim + 3/10 * astab + 3/10 * salign))
    ⟨overall, isim, astab, salign⟩

/-- `LSS._detect_drift`: coherence-drop first (severity by drop size),
topic-shift only if no coherence-drop event fired. -/
def detectDrift (cfg : LSSConfig) (s : LSSSession) (c : CoherenceResult)
    (ts : Int) : Option DriftEvent :=
  let previous := s.metrics.coherence
  let drop := previous.overall - c.overall
  if c.overall < cfg.driftMinCoherence ∧ cfg.driftDropThreshold ≤ drop then
    some { threadId := s.threadId, type := "coherence_drop",
           severity :=
             if 2/5 < drop then "high"
             else if 1/4 < drop then "medium" else "low",
           timestamp := ts,
           details := .cohDrop previous.overall c.overall }
  else
    let topics := topicsOf (pySliceLast cfg.topicShiftWindow s.messages)
    if 3 ≤ topics.length then
      let uniq := topics.dedup.length
      if min topics.length 3 ≤ uniq then
        some { threadId := s.threadId, type := "topic_shift",
               severity := if 3 < uniq then "high" else "medium",
               timestamp := ts, details := .topicShift topics uniq }
      else none
    else none

/-! ### The in-memory storage backend and `LSS.store` -/

/-- The in-memory backend's dict of sessions. -/
abbrev LSSStore : Type := List (String × LSSSession)

def sessLookup : LSSStore → String → Option LSSSession
  | [], _ => none
  | (k, s) :: t, tid => if k = tid then some s else sessLookup t tid

/-- `InMemorySessionStorage.save`: overwrite the entry for the thread. -/
def storageSave (st : LSSStore) (s : LSSSession) : LSSStore :=
  (s.threadId, s) ::
    List.filter (fun kv => kv.1 ≠ s.threadId) st

/-- `InMemorySessionStorage.cleanup`: lazily drop sessions whose
`updated_at` is older than the TTL. -/
def storageCleanup (st : LSSStore) (now : Int) (ttlMs : Int) : LSSStore :=
  List.filter (fun kv => ¬ (ttlMs < now - kv.2.metadata.updatedAt)) st

/-- A fresh session as `LSS.store` creates it. -/
def freshSession (threadId : String) (now : Int) : LSSSession :=
  { threadId := threadId, messages := [], coherence := 1,
    metrics := { coherence := ⟨1, 1, 1, 1⟩, previousCoherence := none,
                 driftEvents := [], updatedAt := now },
    metadata := { createdAt := now, updatedAt := now, messageCount := 0 } }

/-- The append-and-trim step of `LSS.store`: append the new message, then
`messages = messages[-max_messages:]` when the length exceeds the maximum
(Python slice semantics: `[-0:]` keeps everything). -/
def appendAndTrim (cfg : LSSConfig) (msgs : List LSSMessage)
    (m : LSSMessage) : List LSSMessage :=
  let msgs1 := msgs ++ [m]
  if cfg.maxMessages < msgs1.length then pySliceLast cfg.maxMessages msgs1
  else msgs1

/-- The per-session body of `LSS.store`: append/trim, update the metadata,
and — once at least 2 messages exist — recompute coherence, run drift
detection against the previous metrics and record the outcome.  Returns the
updated session and the emitted event. -/
def updateSession (cfg : LSSConfig) (ops : Ops) (session : LSSSession)
    (lce : Lce) (payload : Option CV) (now : Int) :
    LSSSession × Option DriftEvent :=
  let msgs2 := appendAndTrim cfg session.messages
    { lce := lce, payload := payload, timestamp := now }
  let session1 :=
    { session with
      messages := msgs2,
      metadata := { session.metadata with
        messageCount := msgs2.length, updatedAt := now } }
  if 2 ≤ session1.metadata.messageCount then
    let coherence := calculateCoherence cfg ops session1.messages
    let driftEvent := detectDrift cfg session1 coherence now
    ({ session1 with
        metrics :=
          { coherence := coherence,
            previousCoherence := some session1.metrics.coherence,
            driftEvents := session1.metrics.driftEvents ++ driftEvent.toList,
            updatedAt := now },
        coherence := coherence.overall }, driftEvent)
  else
    ({ session1 with
        metrics := { session1.metrics with updatedAt := now } }, none)

/-- `LSS.store`: cleanup, load-or-create, update the session, save it, and
return the new store with the emitted drift event (`_emit` fires exactly on
the returned event). -/
def lssStore (cfg : LSSConfig) (ops : Ops) (st : LSSStore)
    (threadId : String) (lce : Lce) (payload : Option CV) (now : Int) :
    LSSStore × Option DriftEvent :=
  let st1 := storageCleanup st now cfg.sessionTtl
  let session :=
    match sessLookup st1 threadId with
    | some s => s
    | none => freshSession threadId now
  let r := updateSession cfg ops session lce payload now
  (storageSave st1 r.1, r.2)

/-! ### Structural lemmas about `store` -/

theorem updateSession_threadId (cfg : LSSConfig) (ops : Ops)
    (session : LSSSession) (lce : Lce) (payload : Option CV) (now : Int) :
    (updateSession cfg ops session lce payload now).1.threadId =
      session.threadId := by
  simp only [updateSession]
  split <;> rfl

theorem updateSession_events (cfg : LSSConfig) (ops : Ops)
    (session : LSSSession) (lce : Lce) (payload : Option CV) (now : Int) :
    (updateSession cfg ops session lce payload now).1.metrics.driftEvents =
      session.metrics.driftEvents ++
        (updateSession cfg ops session lce payload now).2.toList := by
  simp only [updateSession]
  split <;> simp

theorem updateSession_messages (cfg : LSSConfig) (ops : Ops)
    (session : LSSSession) (lce : Lce) (payload : Option CV) (now : Int) :
    (updateSession cfg ops session lce payload now).1.messages =
      appendAndTrim cfg session.messages
        { lce := lce, payload := payload, timestamp := now } := by
  simp only [updateSession]
  split <;> rfl

theorem updateSession_count (cfg : LSSConfig) (ops : Ops)
    (session : LSSSession) (lce : Lce) (payload : Option CV) (now : Int) :
    (updateSession cfg ops session lce payload now).1.metadata.messageCount =
      (updateSession cfg ops session lce payload now).1.messages.length := by
  simp only [updateSession]
  split <;> rfl

theorem updateSession_updatedAt (cfg : LSSConfig) (ops : Ops)
    (session : LSSSession) (lce : Lce) (payload : Option CV) (now : Int) :
    (updateSession cfg ops session lce payload now).1.metadata.updatedAt =
      now := by
  simp only [updateSession]
  split <;> rfl

theorem sessLookup_save_self (st : LSSStore) (s : LSSSession) :
    sessLookup (storageSave st s) s.threadId = some s := by
  simp [storageSave, sessLookup]

theorem sessLookup_save_eq (st : LSSStore) (s : LSSSession) (tid : String)
    (h : s.threadId = tid) : sessLookup (storageSave st s) tid = some s := by
  subst h
  exact sessLookup_save_self st s

theorem sessLookup_save_other (st : LSSStore) (s : LSSSession)
    (tid : String) (h : tid ≠ s.threadId) :
    sessLookup (storageSave st s) tid =
      sessLookup (List.filter (fun kv => kv.1 ≠ s.threadId) st) tid := by
  simp [storageSave, sessLookup, Ne.symm h]

/-- A store is well formed when every session sits under its own thread id
(an invariant of the Python dict, which is keyed by `session.thread_id`). -/
def WFStore (st : LSSStore) : Prop := ∀ kv ∈ st, kv.2.threadId = kv.1

theorem sessLookup_threadId {st : LSSStore} {tid : String} {s : LSSSession}
    (hwf : WFStore st) (h : sessLookup st tid = some s) :
    s.threadId = tid := by
  induction st with
  | nil => exact nomatch h
  | cons kv t ih =>
      obtain ⟨k, v⟩ := kv
      by_cases hk : k = tid
      · simp [sessLookup, hk] at h
        have hv : v.threadId = k := hwf (k, v) (by simp)
        rw [← h, hv, hk]
      · simp [sessLookup, hk] at h
        exact ih (fun kv hm => hwf kv (by simp [hm])) h

theorem WFStore_cleanup {st : LSSStore} (hwf : WFStore st) (now ttl : Int) :
    WFStore (storageCleanup st now ttl) := by
  intro kv hm
  exact hwf kv (List.mem_of_mem_filter hm)

/-- C6.  Drift detection rule and event exclusivity: (i) every `store()`
call emits at most one drift event, and the stored session's event list
extends the previous one by exactly the emitted event; (ii) a
`coherence_drop` event is emitted exactly when
`new.overall < drift_min_coherence` and
`previous.overall - new.overall >= drift_drop_threshold`; (iii) in that
case the event is the coherence-drop event with severity `high` for a drop
above 0.4, `medium` above 0.25, and `low` otherwise; (iv) when no
coherence-drop fired, any emitted event is a `topic_shift` (the topic
check runs only then). -/
theorem drift_detection_rule :
    (∀ (cfg : LSSConfig) (ops : Ops) (st : LSSStore) (tid : String)
        (lce : Lce) (payload : Option CV) (now : Int),
        ((lssStore cfg ops st tid lce payload now).2).toList.length ≤ 1) ∧
    (∀ (cfg : LSSConfig) (ops : Ops) (st : LSSStore) (tid : String)
        (lce : Lce) (payload : Option CV) (now : Int), WFStore st →
        ∀ s1, sessLookup (lssStore cfg ops st tid lce payload now).1 tid =
          some s1 →
        s1.metrics.driftEvents =
          (match sessLookup (storageCleanup st now cfg.sessionTtl) tid with
           | some s0 => s0.metrics.driftEvents
           | none => []) ++
            ((lssStore cfg ops st tid lce payload now).2).toList) ∧
    (∀ (cfg : LSSConfig) (s : LSSSession) (c : CoherenceResult) (ts : Int),
        (∃ e, detectDrift cfg s c ts = some e ∧ e.type = "coherence_drop") ↔
          (c.overall < cfg.driftMinCoherence ∧
            cfg.driftDropThreshold ≤
              s.metrics.coherence.overall - c.overall)) ∧
    (∀ (cfg : LSSConfig) (s : LSSSession) (c : CoherenceResult) (ts : Int),
        (c.overall < cfg.driftMinCoherence ∧
          cfg.driftDropThreshold ≤ s.metrics.coherence.overall - c.overall) →
        detectDrift cfg s c ts = some
          { threadId := s.threadId, type := "coherence_drop",
            severity :=
              if 2/5 < s.metrics.coherence.overall - c.overall then "high"
              else if 1/4 < s.metrics.coherence.overall - c.overall then
                "medium"
              else "low",
            timestamp := ts,
            details := .cohDrop s.metrics.coherence.overall c.overall }) ∧
    (∀ (cfg : LSSConfig) (s : LSSSession) (c : CoherenceResult) (ts : Int),
        ¬ (c.overall < cfg.driftMinCoherence ∧
            cfg.driftDropThreshold ≤
              s.metrics.coherence.overall - c.overall) →
        ∀ e, detectDrift cfg s c ts = some e → e.type = "topic_shift") := by
  have hd : ∀ (cfg : LSSConfig) (s : LSSSession) (c : CoherenceResult)
      (ts : Int),
      ¬ (c.overall < cfg.driftMinCoherence ∧
          cfg.driftDropThreshold ≤ s.metrics.coherence.overall - c.overall) →
      ∀ e, detectDrift cfg s c ts = some e → e.type = "topic_shift" := by
    intro cfg s c ts hnc e he
    simp only [detectDrift] at he
    rw [if_neg hnc] at he
    by_cases h3 :
        3 ≤ (topicsOf (pySliceLast cfg.topicShiftWindow s.messages)).length
    · rw [if_pos h3] at he
      by_cases h4 :
          min (topicsOf (pySliceLast cfg.topicShiftWindow
            s.messages)).length 3 ≤
            (topicsOf (pySliceLast cfg.topicShiftWindow
              s.messages)).dedup.length
      · rw [if_pos h4] at he
        cases he
        rfl
      · rw [if_neg h4] at he
        exact nomatch he
    · rw [if_neg h3] at he
      exact nomatch he
  have hc : ∀ (cfg : LSSConfig) (s : LSSSession) (c : CoherenceResult)
      (ts : Int),
      (c.overall < cfg.driftMinCoherence ∧
        cfg.driftDropThreshold ≤ s.metrics.coherence.overall - c.overall) →
      detectDrift cfg s c ts = some
        { threadId := s.threadId, type := "coherence_drop",
          severity :=
            if 2/5 < s.metrics.coherence.overall - c.overall then "high"
            else if 1/4 < s.metrics.coherence.overall - c.overall then
              "medium"
            else "low",
          timestamp := ts,
          details := .cohDrop s.metrics.coherence.overall c.overall } := by
    intro cfg s c ts hcond
    simp only [detectDrift]
    rw [if_pos hcond]
  refine ⟨?_, ?_, ?_, hc, hd⟩
  · intro cfg ops st tid lce payload now
    simp only [lssStore]
    cases hh : (updateSession cfg ops
        (match sessLookup (storageCleanup st now cfg.sessionTtl) tid with
         | some s => s
         | none => freshSession tid now) lce payload now).2 <;>
      simp [hh]
  · intro cfg ops st tid lce payload now hwf s1 h1
    have hwf1 := WFStore_cleanup hwf now cfg.sessionTtl
    simp only [lssStore] at h1 ⊢
    cases hload : sessLookup (storageCleanup st now cfg.sessionTtl) tid with
    | none =>
        simp only [hload] at h1 ⊢
        have hft : (updateSession cfg ops (freshSession tid now) lce payload
            now).1.threadId = tid :=
          updateSession_threadId cfg ops (freshSession tid now) lce payload
            now
        rw [sessLookup_save_eq _ _ _ hft] at h1
        cases h1
        rw [updateSession_events]
        rfl
    | some s0 =>
        simp only [hload] at h1 ⊢
        have htid : (updateSession cfg ops s0 lce payload
            now).1.threadId = tid := by
          rw [updateSession_threadId]
          exact sessLookup_threadId hwf1 hload
        rw [sessLookup_save_eq _ _ _ htid] at h1
        cases h1
        rw [updateSession_events]
  · intro cfg s c ts
    constructor
    · rintro ⟨e, he, hty⟩
      by_contra hnc
      have := hd cfg s c ts hnc e he
      rw [hty] at this
      exact nomatch this
    · intro hcond
      exact ⟨_, hc cfg s c ts hcond, rfl⟩

/-- C6 witness: a concrete coherence drop (previous overall 1, new overall
0.2, defaults `min_coherence=0.6`, `threshold=0.2`) produces exactly the
coherence-drop event with severity `high`, and a store call on an empty
store emits no event (at most one). -/
theorem drift_detection_rule_witness :
    detectDrift defaultConfig (freshSession "t" 0) ⟨1/5, 1, 1, 1/5⟩ 0 =
      some { threadId := "t", type := "coherence_drop", severity := "high",
             timestamp := 0, details := .cohDrop 1 (1/5) } ∧
    (∃ e, detectDrift defaultConfig (freshSession "t" 0) ⟨1/5, 1, 1, 1/5⟩ 0 =
      some e ∧ e.type = "coherence_drop") := by
  constructor
  · have h := drift_detection_rule.2.2.2.1 defaultConfig
      (freshSession "t" 0) ⟨1/5, 1, 1, 1/5⟩ 0 (by norm_num [defaultConfig,
        freshSession])
    rw [h]
    norm_num [freshSession]
  · exact (drift_detection_rule.2.2.1 defaultConfig (freshSession "t" 0)
      ⟨1/5, 1, 1, 1/5⟩ 0).mpr (by norm_num [defaultConfig, freshSession])

/-! ### Coherence bounds (C7) -/

/-- What the proofs need of `x ** 0.5`: nonnegative, with square at least
the argument (true of the real square root). -/
def SqrtSpec (ops : Ops) : Prop :=
  ∀ x : Rat, 0 ≤ x → 0 ≤ ops.sqrt x ∧ x ≤ ops.sqrt x * ops.sqrt x

/-- What the proofs need of `math.exp` on nonpositive arguments: the result
lies in `[0, 1]` (true of the real exponential). -/
def ExpSpec (ops : Ops) : Prop :=
  ∀ x : Rat, x ≤ 0 → 0 ≤ ops.exp x ∧ ops.exp x ≤ 1

theorem sumSq_nonneg (v : List Rat) : 0 ≤ sumSq v := by
  refine List.sum_nonneg ?_
  intro x hx
  obtain ⟨a, _, rfl⟩ := List.mem_map.mp hx
  exact mul_self_nonneg a

theorem vecLookup_mem {l : List (String × List Rat)} {s : String}
    {v : List Rat} (h : vecLookup l s = some v) : v ∈ l.map Prod.snd := by
  induction l with
  | nil => exact nomatch h
  | cons kv t ih =>
      obtain ⟨k, w⟩ := kv
      by_cases hk : k = s
      · simp [vecLookup, hk] at h
        simp [← h]
      · simp [vecLookup, hk] at h
        simp [ih h]

theorem intentVec_mem (s : String) :
    intentVec s ∈ INTENT_VECTORS.map Prod.snd := by
  unfold intentVec
  cases h : vecLookup INTENT_VECTORS s with
  | some v => exact vecLookup_mem h
  | none => simp [INTENT_VECTORS]

theorem table_nonneg :
    ∀ v ∈ INTENT_VECTORS.map Prod.snd, ∀ x ∈ v, 0 ≤ x := by
  simp only [INTENT_VECTORS, List.map_cons, List.map_nil,
    List.forall_mem_cons]
  norm_num

set_option maxHeartbeats 1600000 in
theorem table_cauchy_schwarz :
    ∀ v ∈ INTENT_VECTORS.map Prod.snd, ∀ w ∈ INTENT_VECTORS.map Prod.snd,
      dotProd v w * dotProd v w ≤ sumSq v * sumSq w := by
  simp only [INTENT_VECTORS, List.map_cons, List.map_nil,
    List.forall_mem_cons]
  norm_num [dotProd, sumSq]

theorem dotProd_nonneg {v w : List Rat} (hv : ∀ x ∈ v, 0 ≤ x)
    (hw : ∀ x ∈ w, 0 ≤ x) : 0 ≤ dotProd v w := by
  induction v generalizing w with
  | nil => simp [dotProd]
  | cons a t ih =>
      cases w with
      | nil => simp [dotProd]
      | cons b u =>
          simp only [dotProd, List.zipWith_cons_cons, List.sum_cons]
          have h1 : (0 : Rat) ≤ a * b :=
            mul_nonneg (hv a (by simp)) (hw b (by simp))
          have h2 := ih (fun x hx => hv x (List.mem_cons_of_mem a hx))
            (fun x hx => hw x (List.mem_cons_of_mem b hx))
          simp only [dotProd] at h2
          linarith

theorem cosineSimilarity_bounds (ops : Ops) (hs : SqrtSpec ops)
    {v w : List Rat} (hdot : 0 ≤ dotProd v w)
    (hcs : dotProd v w * dotProd v w ≤ sumSq v * sumSq w) :
    0 ≤ cosineSimilarity ops v w ∧ cosineSimilarity ops v w ≤ 1 := by
  unfold cosineSimilarity
  by_cases hz : ops.sqrt (sumSq v) = 0 ∨ ops.sqrt (sumSq w) = 0
  · rw [if_pos hz]
    norm_num
  · rw [if_neg hz]
    push_neg at hz
    obtain ⟨hz1, hz2⟩ := hz
    obtain ⟨hs1, hv1⟩ := hs (sumSq v) (sumSq_nonneg v)
    obtain ⟨hs2, hv2⟩ := hs (sumSq w) (sumSq_nonneg w)
    have hp1 : 0 < ops.sqrt (sumSq v) := lt_of_le_of_ne hs1 (Ne.symm hz1)
    have hp2 : 0 < ops.sqrt (sumSq w) := lt_of_le_of_ne hs2 (Ne.symm hz2)
    have hpp : 0 < ops.sqrt (sumSq v) * ops.sqrt (sumSq w) :=
      mul_pos hp1 hp2
    have hq1 : sumSq v * sumSq w ≤
        (ops.sqrt (sumSq v) * ops.sqrt (sumSq v)) *
          (ops.sqrt (sumSq w) * ops.sqrt (sumSq w)) :=
      mul_le_mul hv1 hv2 (sumSq_nonneg w) (mul_nonneg hs1 hs1)
    have hq2 : dotProd v w * dotProd v w ≤
        (ops.sqrt (sumSq v) * ops.sqrt (sumSq w)) *
          (ops.sqrt (sumSq v) * ops.sqrt (sumSq w)) := by
      nlinarith [hcs, hq1]
    constructor
    · exact div_nonneg hdot hpp.le
    · rw [div_le_one hpp]
      nlinarith [hq2, hdot, hpp]

theorem list_sum_le_length {l : List Rat} (h : ∀ x ∈ l, x ≤ 1) :
    l.sum ≤ (l.length : Rat) := by
  induction l with
  | nil => simp
  | cons a t ih =>
      simp only [List.sum_cons, List.length_cons]
      have ha := h a (by simp)
      have ht := ih (fun x hx => h x (by simp [hx]))
      push_cast
      linarith

theorem avg_bounds {l : List Rat} (hl : l ≠ [])
    (h : ∀ x ∈ l, 0 ≤ x ∧ x ≤ 1) :
    0 ≤ l.sum / (l.length : Rat) ∧ l.sum / (l.length : Rat) ≤ 1 := by
  have hlen : 0 < (l.length : Rat) := by
    have := List.length_pos.mpr hl
    exact_mod_cast this
  constructor
  · exact div_nonneg (List.sum_nonneg (fun x hx => (h x hx).1)) hlen.le
  · rw [div_le_one hlen]
    exact list_sum_le_length (fun x hx => (h x hx).2)

theorem intentSimilarity_bounds (ops : Ops) (hs : SqrtSpec ops)
    (messages : List LSSMessage) :
    0 ≤ intentSimilarity ops messages ∧ intentSimilarity ops messages ≤ 1
    := by
  unfold intentSimilarity
  by_cases h2 : messages.length < 2
  · rw [if_pos h2]
    norm_num
  · rw [if_neg h2]
    set pairs := List.zip messages.dropLast messages.tail with hpairs
    set sims := pairs.map (fun pr =>
      cosineSimilarity ops (intentVec pr.1.lce.intent.type)
        (intentVec pr.2.lce.intent.type)) with hsims
    by_cases hz : sims.length = 0
    · rw [if_pos hz]
      norm_num
    · rw [if_neg hz]
      have hmem : ∀ x ∈ sims, 0 ≤ x ∧ x ≤ 1 := by
        intro x hx
        rw [hsims, List.mem_map] at hx
        obtain ⟨pr, _, rfl⟩ := hx
        exact cosineSimilarity_bounds ops hs
          (dotProd_nonneg
            (table_nonneg _ (intentVec_mem pr.1.lce.intent.type))
            (table_nonneg _ (intentVec_mem pr.2.lce.intent.type)))
          (table_cauchy_schwarz _ (intentVec_mem pr.1.lce.intent.type) _
            (intentVec_mem pr.2.lce.intent.type))
      exact avg_bounds (fun hnil => hz (by rw [hsims, hnil]; rfl)) hmem

theorem variance_nonneg (l : List Rat) : 0 ≤ variance l := by
  unfold variance
  by_cases hz : l.length = 0
  · rw [if_pos hz]
  · rw [if_neg hz]
    refine div_nonneg (List.sum_nonneg ?_) (by positivity)
    intro x hx
    obtain ⟨a, _, rfl⟩ := List.mem_map.mp hx
    exact mul_self_nonneg _

theorem affectStability_bounds (ops : Ops) (he : ExpSpec ops)
    (messages : List LSSMessage) :
    0 ≤ affectStability ops messages ∧ affectStability ops messages ≤ 1
    := by
  unfold affectStability
  by_cases h2 : (padsOf messages).length < 2
  · rw [if_pos h2]
    norm_num
  · rw [if_neg h2]
    refine he _ ?_
    have n1 := variance_nonneg ((padsOf messages).map (fun p => p.1))
    have n2 := variance_nonneg ((padsOf messages).map (fun p => p.2.1))
    have n3 := variance_nonneg ((padsOf messages).map (fun p => p.2.2))
    nlinarith

theorem semanticAlignment_bounds (messages : List LSSMessage) :
    0 ≤ semanticAlignment messages ∧ semanticAlignment messages ≤ 1 := by
  unfold semanticAlignment
  by_cases h2 : (topicsOf messages).length < 2
  · rw [if_pos h2]
    norm_num
  · rw [if_neg h2]
    push_neg at h2
    have hne : topicsOf messages ≠ [] := by
      intro h
      rw [h] at h2
      exact absurd h2 (by norm_num)
    have hdedup : 1 ≤ ((topicsOf messages).dedup.length : Rat) := by
      have : (topicsOf messages).dedup ≠ [] := by
        intro h
        exact hne ((List.dedup_eq_nil _).mp h)
      have := List.length_pos.mpr this
      exact_mod_cast this
    constructor
    · positivity
    · rw [div_le_one (by linarith)]
      linarith

/-- C7.  Coherence bounds: for every configuration and every list of
messages (any intents — including unknown categories via the "tell"
fallback — any PAD tuples, any topics), all four components of
`calculate_coherence` lie in `[0, 1]`, given a square root that is
nonnegative with square at least its argument and an exponential that maps
nonpositive arguments into `[0, 1]`. -/
theorem coherence_bounds (ops : Ops) (hs : SqrtSpec ops) (he : ExpSpec ops)
    (cfg : LSSConfig) (messages : List LSSMessage) :
    0 ≤ (calculateCoherence cfg ops messages).overall ∧
    (calculateCoherence cfg ops messages).overall ≤ 1 ∧
    0 ≤ (calculateCoherence cfg ops messages).intentSimilarity ∧
    (calculateCoherence cfg ops messages).intentSimilarity ≤ 1 ∧
    0 ≤ (calculateCoherence cfg ops messages).affectStability ∧
    (calculateCoherence cfg ops messages).affectStability ≤ 1 ∧
    0 ≤ (calculateCoherence cfg ops messages).semanticAlignment ∧
    (calculateCoherence cfg ops messages).semanticAlignment ≤ 1 := by
  unfold calculateCoherence
  by_cases h2 : messages.length < 2
  · rw [if_pos h2]
    norm_num
  · rw [if_neg h2]
    obtain ⟨hi1, hi2⟩ := intentSimilarity_bounds ops hs
      (pySliceLast cfg.coherenceWindow messages)
    obtain ⟨ha1, ha2⟩ := affectStability_bounds ops he
      (pySliceLast cfg.coherenceWindow messages)
    obtain ⟨hs1, hs2⟩ := semanticAlignment_bounds
      (pySliceLast cfg.coherenceWindow messages)
    refine ⟨le_max_left 0 _, ?_, hi1, hi2, ha1, ha2, hs1, hs2⟩
    exact max_le (by norm_num) (min_le_left 1 _)

/-- Concrete rational stand-ins for `math.exp` and `** 0.5` satisfying the
specs (witness instance). -/
def ops0 : Ops := { exp := fun _ => 1/2, sqrt := fun x => max 1 x }

/-- A small constructor for the envelopes the session-store scenarios use:
an intent type, a PAD tuple and a topic. -/
def lceMsg (ty : String) (pad : Rat × Rat × Rat) (topic : String) : Lce :=
  { intent := { type := ty, goal := none }
    affect := some { pad := some pad, tags := none }
    meaning := some { topic := some topic, ontology := none }
    trust := none
    memory := none
    policy := { consent := "team", share := none, dp := none }
    qos := none
    trace := none
    sig := none }

def msgW1 : LSSMessage :=
  { lce := lceMsg "ask" (1/2, 1/2, 1/2) "status", payload := none,
    timestamp := 0 }

def msgW2 : LSSMessage :=
  { lce := lceMsg "plan" (-(1/2), 0, 1/2) "other", payload := none,
    timestamp := 1 }

/-- C7 witness: the bounds at a concrete two-message window with concrete
ops satisfying both specs. -/
theorem coherence_bounds_witness :
    0 ≤ (calculateCoherence defaultConfig ops0 [msgW1, msgW2]).overall ∧
    (calculateCoherence defaultConfig ops0 [msgW1, msgW2]).overall ≤ 1 ∧
    0 ≤ (calculateCoherence defaultConfig ops0
      [msgW1, msgW2]).intentSimilarity ∧
    (calculateCoherence defaultConfig ops0 [msgW1, msgW2]).intentSimilarity
      ≤ 1 ∧
    0 ≤ (calculateCoherence defaultConfig ops0
      [msgW1, msgW2]).affectStability ∧
    (calculateCoherence defaultConfig ops0 [msgW1, msgW2]).affectStability
      ≤ 1 ∧
    0 ≤ (calculateCoherence defaultConfig ops0
      [msgW1, msgW2]).semanticAlignment ∧
    (calculateCoherence defaultConfig ops0 [msgW1, msgW2]).semanticAlignment
      ≤ 1 :=
  coherence_bounds ops0
    (by
      intro x hx
      constructor
      · have : (0 : Rat) ≤ 1 := by norm_num
        exact le_trans this (le_max_left 1 x)
      · rcases le_total x 1 with h | h
        · have h1 : max 1 x = 1 := max_eq_left h
          simp [ops0, h1]
          linarith
        · have h1 : max 1 x = x := max_eq_right h
          simp [ops0, h1]
          nlinarith)
    (by
      intro x hx
      norm_num [ops0])
    defaultConfig [msgW1, msgW2]

/-! ### The trim scenario (C8) -/

/-- The last `n` elements. -/
def lastN {α : Type} (n : Nat) (l : List α) : List α :=
  l.drop (l.length - n)

theorem pySliceLast_eq_lastN {α : Type} {n : Nat} (hn : 1 ≤ n)
    (l : List α) : pySliceLast n l = lastN n l := by
  unfold pySliceLast lastN
  rw [if_neg (by omega)]

/-- For a positive maximum, the append-and-trim step keeps exactly the last
`max_messages` elements of the appended list. -/
theorem appendAndTrim_eq {cfg : LSSConfig} (hmax : 1 ≤ cfg.maxMessages)
    (msgs : List LSSMessage) (m : LSSMessage) :
    appendAndTrim cfg msgs m = lastN cfg.maxMessages (msgs ++ [m]) := by
  unfold appendAndTrim
  by_cases h : cfg.maxMessages < (msgs ++ [m]).length
  · rw [if_pos h, pySliceLast_eq_lastN hmax]
  · rw [if_neg h]
    push_neg at h
    unfold lastN
    rw [Nat.sub_eq_zero_of_le h, List.drop_zero]

theorem lastN_length_le {α : Type} (n : Nat) (l : List α) :
    (lastN n l).length ≤ n := by
  unfold lastN
  rw [List.length_drop]
  omega

theorem lastN_append_step {α : Type} {n : Nat} (hn : 1 ≤ n) (l : List α)
    (x : α) : lastN n (lastN n l ++ [x]) = lastN n (l ++ [x]) := by
  by_cases hL : l.length ≤ n
  · have h1 : lastN n l = l := by
      unfold lastN
      rw [Nat.sub_eq_zero_of_le hL, List.drop_zero]
    rw [h1]
  · push_neg at hL
    have hk : l.length - n ≤ l.length := Nat.sub_le _ _
    unfold lastN
    simp only [List.length_append, List.length_drop, List.length_cons,
      List.length_nil]
    have hA : l.length - (l.length - n) + (0 + 1) - n = 1 := by omega
    rw [hA]
    have h1n : 1 ≤ (List.drop (l.length - n) l).length := by
      rw [List.length_drop]
      omega
    rw [List.drop_append_of_le_length h1n, List.drop_drop,
      List.drop_append_of_le_length
        (show l.length + (0 + 1) - n ≤ l.length by omega)]
    have hidx : l.length - n + 1 = l.length + (0 + 1) - n := by omega
    rw [hidx]

/-- Storing a sequence of `(envelope, payload)` inputs one by one into the
same thread (all at time 0). -/
def storeFold (cfg : LSSConfig) (ops : Ops) (st : LSSStore) (tid : String)
    (inputs : List (Lce × Option CV)) : LSSStore :=
  inputs.foldl (fun acc inp => (lssStore cfg ops acc tid inp.1 inp.2 0).1) st

theorem cleanup_keeps (cfg : LSSConfig) (tid : String) (s : LSSSession)
    (hup : s.metadata.updatedAt = 0) (httl : 0 ≤ cfg.sessionTtl) :
    storageCleanup [(tid, s)] 0 cfg.sessionTtl = [(tid, s)] := by
  unfold storageCleanup
  rw [List.filter_cons]
  simp [hup, not_lt.mpr httl]

theorem lssStore_step (cfg : LSSConfig) (ops : Ops) (tid : String)
    (s : LSSSession) (lce : Lce) (payload : Option CV)
    (hts : s.threadId = tid) (hup : s.metadata.updatedAt = 0)
    (httl : 0 ≤ cfg.sessionTtl) :
    (lssStore cfg ops [(tid, s)] tid lce payload 0).1 =
      [(tid, (updateSession cfg ops s lce payload 0).1)] := by
  simp only [lssStore, cleanup_keeps cfg tid s hup httl]
  have hlk : sessLookup [(tid, s)] tid = some s := by simp [sessLookup]
  rw [hlk]
  have ht2 : (updateSession cfg ops s lce payload 0).1.threadId = tid := by
    rw [updateSession_threadId]; exact hts
  unfold storageSave
  rw [ht2, List.filter_cons]
  simp

theorem storeFold_invariant (cfg : LSSConfig) (ops : Ops) (tid : String)
    (hmax : 1 ≤ cfg.maxMessages) (httl : 0 ≤ cfg.sessionTtl) :
    ∀ (inputs : List (Lce × Option CV)) (msgs : List LSSMessage)
      (s : LSSSession), s.threadId = tid → s.metadata.updatedAt = 0 →
      s.messages = lastN cfg.maxMessages msgs →
      ∃ s', storeFold cfg ops [(tid, s)] tid inputs = [(tid, s')] ∧
        s'.threadId = tid ∧ s'.metadata.updatedAt = 0 ∧
        s'.messages = lastN cfg.maxMessages
          (msgs ++ inputs.map (fun inp =>
            ({ lce := inp.1, payload := inp.2, timestamp := 0 } :
              LSSMessage))) := by
  intro inputs
  induction inputs with
  | nil =>
      intro msgs s h1 h2 h3
      exact ⟨s, rfl, h1, h2, by simpa using h3⟩
  | cons inp rest ih =>
      intro msgs s h1 h2 h3
      have hstep := lssStore_step cfg ops tid s inp.1 inp.2 h1 h2 httl
      have hmsgs : (updateSession cfg ops s inp.1 inp.2 0).1.messages =
          lastN cfg.maxMessages
            (msgs ++ [{ lce := inp.1, payload := inp.2, timestamp := 0 }])
          := by
        rw [updateSession_messages, appendAndTrim_eq hmax, h3,
          lastN_append_step hmax]
      obtain ⟨s', hfold, ht', hu', hm'⟩ := ih
        (msgs ++ [{ lce := inp.1, payload := inp.2, timestamp := 0 }])
        ((updateSession cfg ops s inp.1 inp.2 0).1)
        (by rw [updateSession_threadId]; exact h1)
        (updateSession_updatedAt cfg ops s inp.1 inp.2 0) hmsgs
      refine ⟨s', ?_, ht', hu', ?_⟩
      · unfold storeFold at hfold ⊢
        rw [List.foldl_cons, hstep]
        exact hfold
      · rw [hm']
        congr 1
        simp

/-- C8.  Trim scenario: for every `N ≥ 1`, storing `N + 2` messages one by
one into one thread of a store configured with `max_messages = N` (other
parameters at defaults) leaves the session holding exactly the last `N`
messages, in their original arrival order. -/
theorem trim_scenario (N : Nat) (hN : 1 ≤ N) (ops : Ops) (tid : String)
    (inputs : List (Lce × Option CV)) (hlen : inputs.length = N + 2) :
    ∃ s, storeFold { defaultConfig with maxMessages := N } ops [] tid
        inputs = [(tid, s)] ∧
      s.messages = (inputs.map (fun inp =>
        ({ lce := inp.1, payload := inp.2, timestamp := 0 } :
          LSSMessage))).drop 2 ∧
      s.messages.length = N := by
  cases inputs with
  | nil => exact absurd hlen (by simp)
  | cons inp rest =>
      set cfg := { defaultConfig with maxMessages := N }
      have httl : 0 ≤ cfg.sessionTtl := by norm_num [cfg, defaultConfig]
      have hmax : 1 ≤ cfg.maxMessages := hN
      have hfirst : (lssStore cfg ops [] tid inp.1 inp.2 0).1 =
          [(tid, (updateSession cfg ops (freshSession tid 0) inp.1 inp.2
            0).1)] := by
        simp only [lssStore]
        have hcl : storageCleanup [] 0 cfg.sessionTtl = [] := rfl
        rw [hcl]
        have hlk : sessLookup [] tid = (none : Option LSSSession) := rfl
        rw [hlk]
        have ht2 : (updateSession cfg ops (freshSession tid 0) inp.1 inp.2
            0).1.threadId = tid := by
          rw [updateSession_threadId]; rfl
        unfold storageSave
        rw [ht2]
        rfl
      have hmsgs : (updateSession cfg ops (freshSession tid 0) inp.1 inp.2
          0).1.messages = lastN cfg.maxMessages
          [{ lce := inp.1, payload := inp.2, timestamp := 0 }] := by
        rw [updateSession_messages, appendAndTrim_eq hmax]
        rfl
      obtain ⟨s', hfold, _, _, hm'⟩ := storeFold_invariant cfg ops tid hmax
        httl rest [{ lce := inp.1, payload := inp.2, timestamp := 0 }]
        ((updateSession cfg ops (freshSession tid 0) inp.1 inp.2 0).1)
        (by rw [updateSession_threadId]; rfl)
        (updateSession_updatedAt cfg ops (freshSession tid 0) inp.1 inp.2 0)
        hmsgs
      refine ⟨s', ?_, ?_, ?_⟩
      · unfold storeFold at hfold ⊢
        rw [List.foldl_cons, hfirst]
        exact hfold
      · rw [hm']
        have hlen2 : (([{ lce := inp.1, payload := inp.2, timestamp := 0 }]
            : List LSSMessage) ++ rest.map (fun inp =>
              ({ lce := inp.1, payload := inp.2, timestamp := 0 } :
                LSSMessage))).length = N + 2 := by
          simp at hlen ⊢
          omega
        unfold lastN
        rw [hlen2]
        have : N + 2 - cfg.maxMessages = 2 := by
          show N + 2 - N = 2
          omega
        rw [this]
        simp
      · rw [hm']
        have := lastN_length_le cfg.maxMessages
          (([{ lce := inp.1, payload := inp.2, timestamp := 0 }] :
            List LSSMessage) ++ rest.map (fun inp =>
              ({ lce := inp.1, payload := inp.2, timestamp := 0 } :
                LSSMessage)))
        unfold lastN at *
        rw [List.length_drop] at *
        simp at hlen ⊢
        omega

/-- C8 witness: three concrete messages with `max_messages = 1` leave
exactly the most recent one. -/
theorem trim_scenario_witness :
    ∃ s, storeFold { defaultConfig with maxMessages := 1 } ops0 [] "t"
        [(lce0, none), (lceMsg "tell" (0, 0, 0) "a", none),
         (lceMsg "plan" (0, 0, 0) "b", none)] = [("t", s)] ∧
      s.messages = ([(lce0, (none : Option CV)),
        (lceMsg "tell" (0, 0, 0) "a", none),
        (lceMsg "plan" (0, 0, 0) "b", none)].map (fun inp =>
          ({ lce := inp.1, payload := inp.2, timestamp := 0 } :
            LSSMessage))).drop 2 ∧
      s.messages.length = 1 :=
  trim_scenario 1 (by norm_num) ops0 "t"
    [(lce0, none), (lceMsg "tell" (0, 0, 0) "a", none),
     (lceMsg "plan" (0, 0, 0) "b", none)] (by rfl)

/-! ### Session bookkeeping (C10) -/

/-- The bookkeeping invariant claimed for every stored session:
`metadata.message_count == len(messages)` and
`len(messages) <= max_messages`. -/
def BookkeepingInv (cfg : LSSConfig) (st : LSSStore) : Prop :=
  ∀ kv ∈ st, kv.2.metadata.messageCount = kv.2.messages.length ∧
    kv.2.messages.length ≤ cfg.maxMessages

theorem sessLookup_mem {st : LSSStore} {tid : String} {s : LSSSession}
    (h : sessLookup st tid = some s) : (tid, s) ∈ st := by
  induction st with
  | nil => exact nomatch h
  | cons kv t ih =>
      obtain ⟨k, v⟩ := kv
      by_cases hk : k = tid
      · simp [sessLookup, hk] at h
        subst hk
        subst h
        simp
      · simp [sessLookup, hk] at h
        exact List.mem_cons_of_mem _ (ih h)

theorem WFStore_save {st : LSSStore} (hwf : WFStore st) (s : LSSSession) :
    WFStore (storageSave st s) := by
  intro kv hm
  rcases List.mem_cons.mp hm with h | h
  · subst h; rfl
  · exact hwf kv (List.mem_of_mem_filter h)

/-- C10 counterexample: with `max_messages = 0`, one `store()` into a fresh
store leaves the session with one message — more than `max_messages` —
because Python's trim slice `messages[-0:]` keeps the whole list, so the
claimed invariant `len(messages) <= max_messages` fails. -/
theorem session_bookkeeping_counterexample :
    ((sessLookup ((lssStore { defaultConfig with maxMessages := 0 } ops0 []
        "t" lce0 none 0).1) "t").map (fun s => s.messages.length)) = some 1
      ∧ ¬ (1 ≤ ({ defaultConfig with maxMessages := 0 } :
        LSSConfig).maxMessages) :=
  ⟨rfl, by decide⟩

/-- C10 (amended with `max_messages >= 1`).  Session bookkeeping invariant:
for every configuration with `max_messages >= 1`, a single `store()` call on
a well-formed store whose sessions all satisfy
`metadata.message_count == len(messages)` and
`len(messages) <= max_messages` yields a store whose sessions all still
satisfy both, the store stays well formed, and the freshly stored session
for the given thread is present and satisfies both. -/
theorem session_bookkeeping (cfg : LSSConfig) (ops : Ops) (st : LSSStore)
    (tid : String) (lce : Lce) (payload : Option CV) (now : Int)
    (hmax : 1 ≤ cfg.maxMessages) (hwf : WFStore st)
    (hinv : BookkeepingInv cfg st) :
    BookkeepingInv cfg (lssStore cfg ops st tid lce payload now).1 ∧
    WFStore (lssStore cfg ops st tid lce payload now).1 ∧
    ∃ s, sessLookup (lssStore cfg ops st tid lce payload now).1 tid =
        some s ∧
      s.metadata.messageCount = s.messages.length ∧
      s.messages.length ≤ cfg.maxMessages := by
  simp only [lssStore]
  set st1 := storageCleanup st now cfg.sessionTtl with hst1
  have hwf1 : WFStore st1 := WFStore_cleanup hwf now cfg.sessionTtl
  have hinv1 : BookkeepingInv cfg st1 := fun kv hm =>
    hinv kv (List.mem_of_mem_filter hm)
  set session : LSSSession :=
    match sessLookup st1 tid with
    | some s => s
    | none => freshSession tid now with hsess
  have htid : session.threadId = tid := by
    rw [hsess]
    cases hls : sessLookup st1 tid with
    | none => rfl
    | some s => exact sessLookup_threadId hwf1 hls
  set s2 := (updateSession cfg ops session lce payload now).1 with hs2
  have hcount : s2.metadata.messageCount = s2.messages.length :=
    updateSession_count cfg ops session lce payload now
  have hlen : s2.messages.length ≤ cfg.maxMessages := by
    rw [hs2, updateSession_messages, appendAndTrim_eq hmax]
    exact lastN_length_le _ _
  have ht2 : s2.threadId = tid := by
    rw [hs2, updateSession_threadId]; exact htid
  refine ⟨?_, WFStore_save hwf1 s2, s2,
    sessLookup_save_eq st1 s2 tid ht2, hcount, hlen⟩
  intro kv hm
  rcases List.mem_cons.mp hm with h | h
  · subst h; exact ⟨hcount, hlen⟩
  · exact hinv1 kv (List.mem_of_mem_filter h)

/-- C10 witness: the amended invariant at the default configuration, an
empty store and one concrete message. -/
theorem session_bookkeeping_witness :
    BookkeepingInv defaultConfig
      (lssStore defaultConfig ops0 [] "t" lce0 none 0).1 ∧
    WFStore (lssStore defaultConfig ops0 [] "t" lce0 none 0).1 ∧
    ∃ s, sessLookup (lssStore defaultConfig ops0 [] "t" lce0 none 0).1 "t" =
        some s ∧
      s.metadata.messageCount = s.messages.length ∧
      s.messages.length ≤ defaultConfig.maxMessages :=
  session_bookkeeping defaultConfig ops0 [] "t" lce0 none 0
    (by norm_num [defaultConfig]) (fun kv h => nomatch h)
    (fun kv h => nomatch h)

/-! ### The drift event scenario (C5) -/

theorem cosineSimilarity_eq (ops : Ops) (v w : List Rat)
    (h1 : ops.sqrt (sumSq v) ≠ 0) (h2 : ops.sqrt (sumSq w) ≠ 0) :
    cosineSimilarity ops v w =
      dotProd v w / (ops.sqrt (sumSq v) * ops.sqrt (sumSq w)) := by
  simp only [cosineSimilarity]
  rw [if_neg (fun h => Or.elim h h1 h2)]

theorem lssStore_snd (cfg : LSSConfig) (ops : Ops) (tid : String)
    (s : LSSSession) (lce : Lce) (payload : Option CV)
    (hup : s.metadata.updatedAt = 0) (httl : 0 ≤ cfg.sessionTtl) :
    (lssStore cfg ops [(tid, s)] tid lce payload 0).2 =
      (updateSession cfg ops s lce payload 0).2 := by
  simp only [lssStore, cleanup_keeps cfg tid s hup httl]
  have hlk : sessLookup [(tid, s)] tid = some s := by simp [sessLookup]
  rw [hlk]

/-- The scenario configuration: defaults except
`drift_min_coherence = 0.65` and `drift_drop_threshold = 0.15`. -/
def cfg5 : LSSConfig :=
  { defaultConfig with
    driftMinCoherence := 13/20,
    driftDropThreshold := 3/20 }

def lceA5 : Lce := lceMsg "ask" (9/10, 9/10, 9/10) "status"

def lceT5 : Lce := lceMsg "tell" (17/20, 22/25, 43/50) "status"

def lceP5 : Lce := lceMsg "plan" (-(9/10), -(9/10), -(9/10)) "off-topic"

def mA5 : LSSMessage := { lce := lceA5, payload := none, timestamp := 0 }

def mT5 : LSSMessage := { lce := lceT5, payload := none, timestamp := 0 }

def mP5 : LSSMessage := { lce := lceP5, payload := none, timestamp := 0 }

/-- The session after the first `store()` of the scenario. -/
def s5one : LSSSession :=
  { threadId := "t", messages := [mA5], coherence := 1,
    metrics := { coherence := ⟨1, 1, 1, 1⟩, previousCoherence := none,
                 driftEvents := [], updatedAt := 0 },
    metadata := { createdAt := 0, updatedAt := 0, messageCount := 1 } }

/-- The intermediate session the second drift check runs against. -/
def s5two : LSSSession :=
  { threadId := "t", messages := [mA5, mT5], coherence := 1,
    metrics := { coherence := ⟨1, 1, 1, 1⟩, previousCoherence := none,
                 driftEvents := [], updatedAt := 0 },
    metadata := { createdAt := 0, updatedAt := 0, messageCount := 2 } }

/-- The session after the second `store()` of the scenario. -/
def sessB5 (ops : Ops) : LSSSession :=
  { threadId := "t", messages := [mA5, mT5],
    coherence := (calculateCoherence cfg5 ops [mA5, mT5]).overall,
    metrics := { coherence := calculateCoherence cfg5 ops [mA5, mT5],
                 previousCoherence := some ⟨1, 1, 1, 1⟩,
                 driftEvents := [], updatedAt := 0 },
    metadata := { createdAt := 0, updatedAt := 0, messageCount := 2 } }

/-- The intermediate session the third drift check runs against. -/
def sessC5 (ops : Ops) : LSSSession :=
  { threadId := "t", messages := [mA5, mT5, mP5],
    coherence := (calculateCoherence cfg5 ops [mA5, mT5]).overall,
    metrics := { coherence := calculateCoherence cfg5 ops [mA5, mT5],
                 previousCoherence := some ⟨1, 1, 1, 1⟩,
                 driftEvents := [], updatedAt := 0 },
    metadata := { createdAt := 0, updatedAt := 0, messageCount := 3 } }

/-- The three consecutive `store()` calls of the scenario. -/
def store5A (ops : Ops) : LSSStore × Option DriftEvent :=
  lssStore cfg5 ops [] "t" lceA5 none 0

def store5B (ops : Ops) : LSSStore × Option DriftEvent :=
  lssStore cfg5 ops (store5A ops).1 "t" lceT5 none 0

def store5C (ops : Ops) : LSSStore × Option DriftEvent :=
  lssStore cfg5 ops (store5B ops).1 "t" lceP5 none 0

theorem store5A_eq (ops : Ops) : store5A ops = ([("t", s5one)], none) := rfl

theorem upd5B_eq (ops : Ops) :
    updateSession cfg5 ops s5one lceT5 none 0 =
    ({ threadId := "t", messages := [mA5, mT5],
       coherence := (calculateCoherence cfg5 ops [mA5, mT5]).overall,
       metrics := { coherence := calculateCoherence cfg5 ops [mA5, mT5],
                    previousCoherence := some ⟨1, 1, 1, 1⟩,
                    driftEvents := (detectDrift cfg5 s5two
                      (calculateCoherence cfg5 ops [mA5, mT5]) 0).toList,
                    updatedAt := 0 },
       metadata := { createdAt := 0, updatedAt := 0, messageCount := 2 } },
     detectDrift cfg5 s5two (calculateCoherence cfg5 ops [mA5, mT5]) 0) :=
  rfl

theorem upd5C_eq (ops : Ops) :
    updateSession cfg5 ops (sessB5 ops) lceP5 none 0 =
    ({ threadId := "t", messages := [mA5, mT5, mP5],
       coherence := (calculateCoherence cfg5 ops [mA5, mT5, mP5]).overall,
       metrics := { coherence := calculateCoherence cfg5 ops [mA5, mT5, mP5],
                    previousCoherence :=
                      some (calculateCoherence cfg5 ops [mA5, mT5]),
                    driftEvents := (detectDrift cfg5 (sessC5 ops)
                      (calculateCoherence cfg5 ops [mA5, mT5, mP5]) 0).toList,
                    updatedAt := 0 },
       metadata := { createdAt := 0, updatedAt := 0, messageCount := 3 } },
     detectDrift cfg5 (sessC5 ops)
       (calculateCoherence cfg5 ops [mA5, mT5, mP5]) 0) :=
  rfl

theorem overall5B (ops : Ops) :
    (calculateCoherence cfg5 ops [mA5, mT5]).overall =
      max 0 (min 1 (2/5 * intentSimilarity ops [mA5, mT5] +
        3/10 * affectStability ops [mA5, mT5] +
        3/10 * semanticAlignment [mA5, mT5])) := rfl

theorem overall5C (ops : Ops) :
    (calculateCoherence cfg5 ops [mA5, mT5, mP5]).overall =
      max 0 (min 1 (2/5 * intentSimilarity ops [mA5, mT5, mP5] +
        3/10 * affectStability ops [mA5, mT5, mP5] +
        3/10 * semanticAlignment [mA5, mT5, mP5])) := rfl

theorem intentVec_ask : intentVec "ask" = [1, 1/2, 0, 0, 0, 1/5] := rfl

theorem intentVec_tell : intentVec "tell" = [1/2, 1, 0, 0, 1/10, 1/5] := rfl

theorem intentVec_plan : intentVec "plan" = [3/10, 3/10, 1/2, 3/10, 0, 1] :=
  rfl

theorem sumSq_ask : sumSq [1, 1/2, 0, 0, 0, 1/5] = 129/100 := by
  norm_num [sumSq]

theorem sumSq_tell : sumSq [1/2, 1, 0, 0, 1/10, 1/5] = 13/10 := by
  norm_num [sumSq]

theorem sumSq_plan : sumSq [3/10, 3/10, 1/2, 3/10, 0, 1] = 38/25 := by
  norm_num [sumSq]

theorem dot_ask_tell :
    dotProd [1, 1/2, 0, 0, 0, 1/5] [1/2, 1, 0, 0, 1/10, 1/5] = 26/25 := by
  norm_num [dotProd]

theorem dot_tell_plan :
    dotProd [1/2, 1, 0, 0, 1/10, 1/5] [3/10, 3/10, 1/2, 3/10, 0, 1] =
      13/20 := by
  norm_num [dotProd]

theorem isim5B_eq (ops : Ops) (h1 : ops.sqrt (129/100) ≠ 0)
    (h2 : ops.sqrt (13/10) ≠ 0) :
    intentSimilarity ops [mA5, mT5] =
      26/25 / (ops.sqrt (129/100) * ops.sqrt (13/10)) := by
  have h0 : intentSimilarity ops [mA5, mT5] =
      [cosineSimilarity ops (intentVec "ask") (intentVec "tell")].sum /
        ((1 : Nat) : Rat) := rfl
  rw [h0, List.sum_cons, List.sum_nil, intentVec_ask, intentVec_tell,
    cosineSimilarity_eq ops _ _ (by rw [sumSq_ask]; exact h1)
      (by rw [sumSq_tell]; exact h2),
    sumSq_ask, sumSq_tell, dot_ask_tell]
  norm_num

theorem isim5C_eq (ops : Ops) (h1 : ops.sqrt (129/100) ≠ 0)
    (h2 : ops.sqrt (13/10) ≠ 0) (h3 : ops.sqrt (38/25) ≠ 0) :
    intentSimilarity ops [mA5, mT5, mP5] =
      (26/25 / (ops.sqrt (129/100) * ops.sqrt (13/10)) +
        13/20 / (ops.sqrt (13/10) * ops.sqrt (38/25))) / 2 := by
  have h0 : intentSimilarity ops [mA5, mT5, mP5] =
      [cosineSimilarity ops (intentVec "ask") (intentVec "tell"),
       cosineSimilarity ops (intentVec "tell") (intentVec "plan")].sum /
        ((2 : Nat) : Rat) := rfl
  rw [h0, List.sum_cons, List.sum_cons, List.sum_nil, intentVec_ask,
    intentVec_tell, intentVec_plan,
    cosineSimilarity_eq ops _ _ (by rw [sumSq_ask]; exact h1)
      (by rw [sumSq_tell]; exact h2),
    cosineSimilarity_eq ops _ _ (by rw [sumSq_tell]; exact h2)
      (by rw [sumSq_plan]; exact h3),
    sumSq_ask, sumSq_tell, sumSq_plan, dot_ask_tell, dot_tell_plan]
  norm_num

theorem pads5B_eq : padsOf [mA5, mT5] =
    ([(9/10, 9/10, 9/10), (17/20, 22/25, 43/50)] :
      List (Rat × Rat × Rat)) := rfl

theorem pads5C_eq : padsOf [mA5, mT5, mP5] =
    ([(9/10, 9/10, 9/10), (17/20, 22/25, 43/50),
      (-(9/10), -(9/10), -(9/10))] : List (Rat × Rat × Rat)) := rfl

theorem astab5B_eq (ops : Ops) :
    affectStability ops [mA5, mT5] = ops.exp (-(3/1600)) := by
  simp only [affectStability, pads5B_eq]
  rw [if_neg (by norm_num)]
  congr 1
  norm_num [variance]

theorem astab5C_eq (ops : Ops) :
    affectStability ops [mA5, mT5, mP5] = ops.exp (-(2117/600)) := by
  simp only [affectStability, pads5C_eq]
  rw [if_neg (by norm_num)]
  congr 1
  norm_num [variance]

theorem topics5B_eq : topicsOf [mA5, mT5] = ["status", "status"] := rfl

theorem topics5C_eq :
    topicsOf [mA5, mT5, mP5] = ["status", "status", "off-topic"] := rfl

theorem salign5B_eq : semanticAlignment [mA5, mT5] = 1 := by
  have hd : (["status", "status"] : List String).dedup = ["status"] := by
    decide
  simp only [semanticAlignment, topics5B_eq, hd]
  norm_num

theorem salign5C_eq : semanticAlignment [mA5, mT5, mP5] = 1/2 := by
  have hd : (["status", "status", "off-topic"] : List String).dedup =
      ["status", "off-topic"] := by decide
  simp only [semanticAlignment, topics5C_eq, hd]
  norm_num

/-- C5.  Drift event scenario: starting from an empty store with
`drift_min_coherence = 0.65` and `drift_drop_threshold = 0.15` (other
parameters at defaults), storing `ask@(0.9,0.9,0.9)/"status"`, then
`tell@(0.85,0.88,0.86)/"status"`, then `plan@(-0.9,-0.9,-0.9)/"off-topic"`
into one thread emits no event on the first two `store()` calls, a
`coherence_drop` event on the third, and leaves exactly that one event
recorded in the session.  The hypotheses pin `math.sqrt` and `math.exp`
at the five points the computation evaluates them, with bounds the real
functions satisfy. -/
theorem drift_event_scenario (ops : Ops)
    (hr1l : 113/100 ≤ ops.sqrt (129/100))
    (hr1u : ops.sqrt (129/100) ≤ 114/100)
    (hr2l : 114/100 ≤ ops.sqrt (13/10))
    (hr2u : ops.sqrt (13/10) ≤ 115/100)
    (hr3l : 123/100 ≤ ops.sqrt (38/25))
    (he2l : 1597/1600 ≤ ops.exp (-(3/1600)))
    (he3u : ops.exp (-(2117/600)) ≤ 600/2717) :
    (store5A ops).2 = none ∧ (store5B ops).2 = none ∧
    Option.map (fun e => e.type) (store5C ops).2 = some "coherence_drop" ∧
    Option.map (fun s => s.metrics.driftEvents.map (fun e => e.type))
      (sessLookup (store5C ops).1 "t") = some ["coherence_drop"] := by
  have hm1pos : (0 : Rat) < ops.sqrt (129/100) :=
    lt_of_lt_of_le (by norm_num) hr1l
  have hm2pos : (0 : Rat) < ops.sqrt (13/10) :=
    lt_of_lt_of_le (by norm_num) hr2l
  have hm3pos : (0 : Rat) < ops.sqrt (38/25) :=
    lt_of_lt_of_le (by norm_num) hr3l
  have hisim2 := isim5B_eq ops (ne_of_gt hm1pos) (ne_of_gt hm2pos)
  have hisim3 := isim5C_eq ops (ne_of_gt hm1pos) (ne_of_gt hm2pos)
    (ne_of_gt hm3pos)
  have hov2 : 4/5 ≤ (calculateCoherence cfg5 ops [mA5, mT5]).overall := by
    rw [overall5B, hisim2, astab5B_eq, salign5B_eq]
    have h12u : ops.sqrt (129/100) * ops.sqrt (13/10) ≤ 1311/1000 := by
      nlinarith [hr1u, hr2u, hm1pos, hm2pos]
    have h12pos : (0 : Rat) < ops.sqrt (129/100) * ops.sqrt (13/10) :=
      mul_pos hm1pos hm2pos
    have hc1l : 1040/1311 ≤
        26/25 / (ops.sqrt (129/100) * ops.sqrt (13/10)) := by
      rw [le_div_iff₀ h12pos]
      nlinarith [h12u]
    refine le_max_of_le_right (le_min (by norm_num) ?_)
    linarith [hc1l, he2l]
  have hov3 : (calculateCoherence cfg5 ops [mA5, mT5, mP5]).overall <
      13/20 := by
    rw [overall5C, hisim3, astab5C_eq, salign5C_eq]
    have h12l : 12882/10000 ≤ ops.sqrt (129/100) * ops.sqrt (13/10) := by
      nlinarith [hr1l, hr2l, hm1pos, hm2pos]
    have h23l : 14022/10000 ≤ ops.sqrt (13/10) * ops.sqrt (38/25) := by
      nlinarith [hr2l, hr3l, hm2pos, hm3pos]
    have h12pos : (0 : Rat) < ops.sqrt (129/100) * ops.sqrt (13/10) :=
      mul_pos hm1pos hm2pos
    have h23pos : (0 : Rat) < ops.sqrt (13/10) * ops.sqrt (38/25) :=
      mul_pos hm2pos hm3pos
    have hc1u : 26/25 / (ops.sqrt (129/100) * ops.sqrt (13/10)) ≤
        5200/6441 := by
      rw [div_le_iff₀ h12pos]
      nlinarith [h12l]
    have hc2u : 13/20 / (ops.sqrt (13/10) * ops.sqrt (38/25)) ≤
        3250/7011 := by
      rw [div_le_iff₀ h23pos]
      nlinarith [h23l]
    refine max_lt (by norm_num) (lt_of_le_of_lt (min_le_right _ _) ?_)
    linarith [hc1u, hc2u, he3u]
  have hdrop : (3 : Rat)/20 ≤
      (calculateCoherence cfg5 ops [mA5, mT5]).overall -
        (calculateCoherence cfg5 ops [mA5, mT5, mP5]).overall := by
    linarith [hov2, hov3]
  have h65 : ¬ ((calculateCoherence cfg5 ops [mA5, mT5]).overall <
      13/20) := not_lt.mpr (le_trans (by norm_num) hov2)
  have he2none : detectDrift cfg5 s5two
      (calculateCoherence cfg5 ops [mA5, mT5]) 0 = none := by
    simp only [detectDrift]
    rw [if_neg (fun hcon => absurd hcon.1 h65)]
    rfl
  have hcond : (calculateCoherence cfg5 ops [mA5, mT5, mP5]).overall <
      cfg5.driftMinCoherence ∧ cfg5.driftDropThreshold ≤
        (sessC5 ops).metrics.coherence.overall -
          (calculateCoherence cfg5 ops [mA5, mT5, mP5]).overall :=
    ⟨hov3, hdrop⟩
  have he3t : Option.map (fun e => e.type) (detectDrift cfg5 (sessC5 ops)
      (calculateCoherence cfg5 ops [mA5, mT5, mP5]) 0) =
      some "coherence_drop" := by
    simp only [detectDrift]
    rw [if_pos hcond]
    rfl
  have he3list : (detectDrift cfg5 (sessC5 ops)
      (calculateCoherence cfg5 ops [mA5, mT5, mP5]) 0).toList.map
        (fun e => e.type) = ["coherence_drop"] := by
    simp only [detectDrift]
    rw [if_pos hcond]
    rfl
  have hB1 : (store5B ops).1 = [("t", sessB5 ops)] := by
    have h1 : store5B ops =
        lssStore cfg5 ops [("t", s5one)] "t" lceT5 none 0 := rfl
    rw [h1, lssStore_step cfg5 ops "t" s5one lceT5 none rfl rfl (by decide),
      upd5B_eq, he2none]
    rfl
  refine ⟨?_, ?_, ?_, ?_⟩
  · rw [store5A_eq]
  · have h2 : (store5B ops).2 =
        (lssStore cfg5 ops [("t", s5one)] "t" lceT5 none 0).2 := rfl
    rw [h2, lssStore_snd cfg5 ops "t" s5one lceT5 none rfl (by decide),
      upd5B_eq]
    exact he2none
  · have h4 : (store5C ops).2 =
        (lssStore cfg5 ops (store5B ops).1 "t" lceP5 none 0).2 := rfl
    rw [h4, hB1,
      lssStore_snd cfg5 ops "t" (sessB5 ops) lceP5 none rfl (by decide),
      upd5C_eq]
    exact he3t
  · have h5 : (store5C ops).1 =
        (lssStore cfg5 ops (store5B ops).1 "t" lceP5 none 0).1 := rfl
    rw [h5, hB1,
      lssStore_step cfg5 ops "t" (sessB5 ops) lceP5 none rfl rfl
        (by decide)]
    rw [show sessLookup
        [("t", (updateSession cfg5 ops (sessB5 ops) lceP5 none 0).1)] "t" =
        some (updateSession cfg5 ops (sessB5 ops) lceP5 none 0).1 by
      simp [sessLookup]]
    rw [upd5C_eq]
    exact congrArg some he3list

/-- Concrete rational stand-ins for `math.sqrt` and `math.exp` at the five
points the drift scenario evaluates them. -/
def ops5 : Ops :=
  { exp := fun x =>
      if x = -(3/1600) then 1597/1600
      else if x = -(2117/600) then 1/5 else 1,
    sqrt := fun x =>
      if x = 129/100 then 227/200
      else if x = 13/10 then 1141/1000
      else if x = 38/25 then 1233/1000 else 1 }

/-- C5 witness: the scenario at the concrete `ops5` stand-ins. -/
theorem drift_event_scenario_witness :
    (store5A ops5).2 = none ∧ (store5B ops5).2 = none ∧
    Option.map (fun e => e.type) (store5C ops5).2 = some "coherence_drop" ∧
    Option.map (fun s => s.metrics.driftEvents.map (fun e => e.type))
      (sessLookup (store5C ops5).1 "t") = some ["coherence_drop"] :=
  drift_event_scenario ops5 (by norm_num [ops5]) (by norm_num [ops5])
    (by norm_num [ops5]) (by norm_num [ops5]) (by norm_num [ops5])
    (by norm_num [ops5]) (by norm_num [ops5])
